import Mathlib

/-!
# Verification of the nqm structural-analysis solver

Shallow embedding of the repository's FEM core:
`src/utils/validate.ts` (`validateModel`), `src/utils/fem.ts` (`solveFem`
and its helpers) and the data model of `src/utils/femTypes.ts`.

Modelling conventions:
* JavaScript `number` (IEEE double) is embedded as `ℚ`.  All arithmetic
  appearing in the source is exact rational arithmetic here; `Math.sqrt`,
  `Math.sin` and `Math.cos` (which have no exact rational counterpart) are
  abstracted into a `RealOps` record that every solver definition takes as a
  parameter.  Theorems quantify over an arbitrary `RealOps`, so they hold for
  any interpretation of those primitives; concrete witnesses use `exactOps`,
  which is exact on the perfect squares and quadrant angles that the witness
  models are built from.
* A JavaScript `Map` is embedded as an association list with *last-set-wins*
  lookup (`jsGet`), matching `Map.set`/`Map.get` overwrite semantics; a JS
  `Set` built from a list is embedded as the first-occurrence dedup
  (`jsDedup`), matching `Set` insertion order.
* Runtime exceptions (a TypeScript non-null assertion `x!` followed by a
  property access on a missing key throws a `TypeError`) are embedded by
  returning `Option`: `none` models an exception escaping the function.  The
  source's sole `try { solve } catch` is embedded by matching on the `Option`
  result of the linear solve and converting `none` into the `singular`
  failure value, exactly as the source converts the caught exception.
* Comparisons of the form `Math.sqrt v < eps` (with `v ≥ 0`) are embedded as
  `v < eps^2`, which is equivalent over the reals; this keeps the validator
  free of the `RealOps` abstraction, as in the source (`validate.ts` never
  calls `Math.sqrt` on a value that is consumed beyond such a comparison).
-/

set_option maxHeartbeats 1000000
set_option maxRecDepth 1600

namespace Nqm

/-- Abstraction of the irrational float primitives used by `fem.ts`:
`sqrt q` embeds `Math.sqrt(q)`, and `sinDeg d` / `cosDeg d` embed
`Math.sin(deg2rad(d))` / `Math.cos(deg2rad(d))` (the source composes
`deg2rad` with `Math.sin`/`Math.cos`; the composite is abstracted as one
primitive because `π` is not rational). -/
structure RealOps where
  sqrt : ℚ → ℚ
  sinDeg : ℚ → ℚ
  cosDeg : ℚ → ℚ

-- ===== Data model (femTypes.ts) =====

structure Node2D where
  id : String
  x : ℚ
  y : ℚ
deriving DecidableEq, Repr

structure Member where
  id : String
  a : String
  b : String
deriving DecidableEq, Repr

inductive SupportType where
  | pin
  | roller
  | fix
deriving DecidableEq, Repr

structure Support where
  id : String
  nodeId : String
  type : SupportType
  angleDeg : ℚ
deriving DecidableEq, Repr

structure Joint where
  id : String
  nodeId : String
deriving DecidableEq, Repr

structure PointLoad where
  id : String
  nodeId : String
  angleDeg : ℚ
  magnitude : ℚ
deriving DecidableEq, Repr

structure DistLoad where
  id : String
  memberId : String
  angleDeg : ℚ
  magnitude : ℚ
deriving DecidableEq, Repr

structure MomentLoad where
  id : String
  nodeId : String
  clockwise : Bool
  magnitude : ℚ
deriving DecidableEq, Repr

structure FemInput where
  nodes : List Node2D
  members : List Member
  supports : List Support
  joints : List Joint
  pointLoads : List PointLoad
  distLoads : List DistLoad
  momentLoads : List MomentLoad
deriving DecidableEq, Repr

structure SectionPoint where
  t : ℚ
  N : ℚ
  Q : ℚ
  M : ℚ
deriving DecidableEq, Repr

structure ElementResult where
  memberId : String
  Na : ℚ
  Qa : ℚ
  Ma : ℚ
  Nb : ℚ
  Qb : ℚ
  Mb : ℚ
  points : List SectionPoint
deriving DecidableEq, Repr

structure ReactionResult where
  supportId : String
  nodeId : String
  fx : ℚ
  fy : ℚ
  m : ℚ
deriving DecidableEq, Repr

structure DisplacementResult where
  nodeId : String
  ux : ℚ
  uy : ℚ
  rot : ℚ
deriving DecidableEq, Repr

inductive FailReason where
  | unstable
  | unsupported
  | noMembers
  | singular
  | validation
deriving DecidableEq, Repr

/-- `FemResult` of femTypes.ts: the success payload or a typed failure. -/
inductive FemResult where
  | ok (elements : List ElementResult) (reactions : List ReactionResult)
      (displacements : List DisplacementResult)
  | failure (reason : FailReason) (message : String)
deriving DecidableEq, Repr

structure SectionProps where
  EA : ℚ
  EI : ℚ
deriving DecidableEq, Repr

def DEFAULT_SECTION : SectionProps := { EA := 1e6, EI := 1e4 }

-- ===== JS collection semantics =====

/-- `Map.get` on a `Map` built by successive `set` calls from the pairs of
`l` (in order): the *last* binding of a key wins. -/
def jsGet {α β : Type} [DecidableEq α] : List (α × β) → α → Option β
  | [], _ => none
  | (a, b) :: rest, k =>
    match jsGet rest k with
    | some v => some v
    | none => if a = k then some b else none

/-- `[...new Set(l)]`: deduplication keeping the first occurrence order. -/
def jsDedup (l : List String) : List String :=
  l.foldl (fun acc x => if x ∈ acc then acc else acc ++ [x]) []

-- ===== validateModel (validate.ts) =====

inductive ValidationLevel where
  | error
  | warning
deriving DecidableEq, Repr

structure ValidationIssue where
  level : ValidationLevel
  code : String
  message : String
  ids : Option (List String)
deriving DecidableEq, Repr

structure ValidationResult where
  ok : Bool
  issues : List ValidationIssue
deriving DecidableEq, Repr

def noMembersIssue : ValidationIssue :=
  { level := .error, code := "NO_MEMBERS", message := "部材が1本もありません。", ids := none }

/-- `new Set(members.flatMap(m => [m.a, m.b]))`, as its insertion-ordered
element list. -/
def usedNodeIdsOf (members : List Member) : List String :=
  jsDedup (members.flatMap fun m => [m.a, m.b])

/-- Check 2: nodes not referenced by any member. -/
def isolatedNodesIssues (nodes : List Node2D) (used : List String) : List ValidationIssue :=
  let isolated := nodes.filter fun n => decide (n.id ∉ used)
  if isolated.length > 0 then
    [{ level := .error, code := "ISOLATED_NODES",
       message := "孤立したノードが " ++ toString isolated.length ++
         " 個あります。部材に接続されていないノードを削除してください。",
       ids := some (isolated.map (·.id)) }]
  else []

/-- Union-find `find` with explicit fuel (the source recursion with path
compression always terminates on the parent forests reachable here; path
compression only speeds lookups up and never changes the root, so it is
omitted). -/
def ufFind (fuel : Nat) (parent : List (String × String)) (x : String) : String :=
  match fuel with
  | 0 => x
  | fuel + 1 =>
    match jsGet parent x with
    | none => x
    | some p => if p = x then x else ufFind fuel parent p

/-- `union(x, y)`: `parent.set(find(x), find(y))`. -/
def ufUnion (parent : List (String × String)) (x y : String) : List (String × String) :=
  parent ++ [(ufFind parent.length parent x, ufFind parent.length parent y)]

/-- Check 3: connectivity of the member network over used nodes. -/
def connectivityIssues (members : List Member) (used : List String) : List ValidationIssue :=
  if used.length > 0 then
    let parent0 := used.map fun id => (id, id)
    let parentF := members.foldl (fun p m => ufUnion p m.a m.b) parent0
    let roots := jsDedup (used.map fun id => ufFind parentF.length parentF id)
    if roots.length > 1 then
      [{ level := .error, code := "DISCONNECTED_STRUCTURE",
         message := "部材が " ++ toString roots.length ++
           " つの独立したグループに分かれています。構造を1つに繋げてください。",
         ids := none }]
    else []
  else []

/-- pin = 2, roller = 1, fix = 3, summed over all supports. -/
def constraintCount (supports : List Support) : Nat :=
  supports.foldl
    (fun sum s =>
      sum + match s.type with
            | .pin => 2
            | .roller => 1
            | .fix => 3)
    0

def noSupportsIssue : ValidationIssue :=
  { level := .error, code := "NO_SUPPORTS",
    message := "支点が設定されていません。pin・roller・fix のいずれかを配置してください。",
    ids := none }

def insufficientConstraintsIssue : ValidationIssue :=
  { level := .error, code := "INSUFFICIENT_CONSTRAINTS",
    message := "支点の拘束が不足しています。最低でも3つの拘束自由度（pin+roller など）が必要です。",
    ids := none }

/-- Checks 4–6: the support block (checks 5 and 6 run only when at least one
support exists). -/
def supportsIssues (supports : List Support) (used : List String) : List ValidationIssue :=
  if supports.length = 0 then
    [noSupportsIssue]
  else
    let disconnected := supports.filter fun s => decide (s.nodeId ∉ used)
    (if disconnected.length > 0 then
      [{ level := .error, code := "SUPPORT_NOT_ON_MEMBER",
         message := "部材に接続されていない支点が " ++ toString disconnected.length ++ " 個あります。",
         ids := some (disconnected.map (·.id)) }]
     else []) ++
    (if constraintCount supports < 3 then
      [insufficientConstraintsIssue]
     else [])

/-- Check 7: no loads at all (warning). -/
def loadWarnings (pointLoads : List PointLoad) (distLoads : List DistLoad) :
    List ValidationIssue :=
  if pointLoads.length > 0 ∨ distLoads.length > 0 then []
  else
    [{ level := .warning, code := "NO_LOADS",
       message := "荷重が設定されていません。解析しても全ての断面力が0になります。", ids := none }]

/-- Check 8: loads of magnitude exactly 0 (warning). -/
def zeroLoadWarnings (pointLoads : List PointLoad) (distLoads : List DistLoad) :
    List ValidationIssue :=
  let zp := pointLoads.filter fun l => decide (l.magnitude = 0)
  let zd := distLoads.filter fun l => decide (l.magnitude = 0)
  let count := zp.length + zd.length
  if count > 0 then
    [{ level := .warning, code := "ZERO_MAGNITUDE_LOAD",
       message := "magnitude が 0 の荷重が " ++ toString count ++ " 個あります（断面力への寄与なし）。",
       ids := some (zp.map (·.id) ++ zd.map (·.id)) }]
  else []

/-- Check 9: duplicate nodes at the same rounded coordinate (warning).
`Math.round` agrees with Mathlib's `round` (half away from zero toward +∞). -/
def dupNodeWarnings (nodes : List Node2D) : List ValidationIssue :=
  let state := nodes.foldl
    (fun (st : List (ℤ × ℤ) × List String) n =>
      let key := (round n.x, round n.y)
      if key ∈ st.1 then (st.1, st.2 ++ [n.id]) else (st.1 ++ [key], st.2))
    ([], [])
  if state.2.length > 0 then
    [{ level := .warning, code := "DUPLICATE_NODES",
       message := "同一座標に重複するノードが " ++ toString state.2.length ++
         " 個あります。意図しない場合は確認してください。",
       ids := some state.2 }]
  else []

/-- Check 10: members of (near-)zero length.  The source compares
`Math.sqrt(dx²+dy²) < 1e-6`; the radicand is nonnegative, so this is the
same predicate as `dx²+dy² < 1e-12`. -/
def zeroLengthIssues (nodes : List Node2D) (members : List Member) : List ValidationIssue :=
  let nodeMap := nodes.map fun n => (n.id, n)
  let zero := members.filter fun m =>
    match jsGet nodeMap m.a, jsGet nodeMap m.b with
    | some a, some b =>
      decide ((b.x - a.x) * (b.x - a.x) + (b.y - a.y) * (b.y - a.y) < 1e-12)
    | _, _ => false
  if zero.length > 0 then
    [{ level := .error, code := "ZERO_LENGTH_MEMBER",
       message := "長さが0の部材が " ++ toString zero.length ++ " 本あります。",
       ids := some (zero.map (·.id)) }]
  else []

/-- `validateModel` of validate.ts: runs every check, collecting all issues
(the missing-members check alone short-circuits); `ok` iff no error-level
issue was collected. -/
def validateModel (input : FemInput) : ValidationResult :=
  if input.members.length = 0 then { ok := false, issues := [noMembersIssue] }
  else
    let used := usedNodeIdsOf input.members
    let issues :=
      isolatedNodesIssues input.nodes used ++
      connectivityIssues input.members used ++
      supportsIssues input.supports used ++
      loadWarnings input.pointLoads input.distLoads ++
      zeroLoadWarnings input.pointLoads input.distLoads ++
      dupNodeWarnings input.nodes ++
      zeroLengthIssues input.nodes input.members
    { ok := (issues.filter fun i => decide (i.level = .error)).length == 0, issues := issues }

-- ===== Utilities of fem.ts =====

/-- `loadVector(angleDeg, magnitude)`: 0° = down (+y), 90° = left (−x). -/
def loadVector (ops : RealOps) (angleDeg magnitude : ℚ) : ℚ × ℚ :=
  (-magnitude * ops.sinDeg angleDeg, magnitude * ops.cosDeg angleDeg)

/-- `rollerConstraintVector(angleDeg)`: 0° → (0,1) = y constrained,
90° → (1,0) = x constrained. -/
def rollerConstraintVector (ops : RealOps) (angleDeg : ℚ) : ℚ × ℚ :=
  (ops.sinDeg angleDeg, ops.cosDeg angleDeg)

structure MemberGeom where
  L : ℚ
  c : ℚ
  s : ℚ
deriving DecidableEq, Repr

/-- `memberGeom`: length and direction cosines of the segment a→b. -/
def memberGeom (ops : RealOps) (ax ay bx bY : ℚ) : MemberGeom :=
  let dx := bx - ax
  let dy := bY - ay
  let L := ops.sqrt (dx * dx + dy * dy)
  { L := L, c := dx / L, s := dy / L }

-- ===== DOF map (fem.ts) =====

/-- Degree-of-freedom indices are JS numbers; the third component of a node
triple is the sentinel `-1` for hinge nodes, so indices are embedded as `ℤ`. -/
structure DofMap where
  nodeDof : List (String × (Int × Int × Int))
  hingeDof : List ((String × String) × Int)
  totalDof : Nat
deriving DecidableEq, Repr

/-- One node's DOF allocation in `buildDofMap`: 2 unknowns and the `-1`
sentinel for hinge nodes, 3 unknowns otherwise. -/
def nodeDofStep (jointNodeIds : List String)
    (st : List (String × (Int × Int × Int)) × Nat) (n : Node2D) :
    List (String × (Int × Int × Int)) × Nat :=
  if n.id ∈ jointNodeIds then
    (st.1 ++ [(n.id, ((st.2 : Int), (st.2 : Int) + 1, -1))], st.2 + 2)
  else
    (st.1 ++ [(n.id, ((st.2 : Int), (st.2 : Int) + 1, (st.2 : Int) + 2))], st.2 + 3)

/-- One member endpoint's independent hinge rotation unknown, if the
endpoint is a hinge node. -/
def hingeEndStep (jointNodeIds : List String) (memberId : String)
    (st : List ((String × String) × Int) × Nat) (nid : String) :
    List ((String × String) × Int) × Nat :=
  if nid ∈ jointNodeIds then (st.1 ++ [((memberId, nid), (st.2 : Int))], st.2 + 1)
  else st

def hingeDofStep (jointNodeIds : List String)
    (st : List ((String × String) × Int) × Nat) (m : Member) :
    List ((String × String) × Int) × Nat :=
  [m.a, m.b].foldl (hingeEndStep jointNodeIds m.id) st

/-- `buildDofMap`: 3 unknowns per ordinary node, 2 per hinge node (rotation
sentinel `-1`), plus one independent rotation unknown per (member, hinge-node)
endpoint.  The source keys `hingeDof` by the string of member id and node id
joined by a colon; the pair key used here is that key without the delimiter
encoding. -/
def buildDofMap (nodes : List Node2D) (members : List Member) (joints : List Joint) :
    DofMap :=
  let jointNodeIds := joints.map (·.nodeId)
  let st1 := nodes.foldl (nodeDofStep jointNodeIds) ([], 0)
  let st2 := members.foldl (hingeDofStep jointNodeIds) ([], st1.2)
  { nodeDof := st1.1, hingeDof := st2.1, totalDof := st2.2 }

/-- `getRotDof`: per-member hinge DOF for hinge nodes, otherwise the node's
shared rotation DOF.  `none` models the `TypeError` thrown by the source's
`nodeDof.get(nodeId)![2]` when the node id is unknown (the `hingeDof` branch
would yield `undefined` instead, but that lookup cannot miss at any call
site: `buildDofMap` registers every (member, hinge-endpoint) pair). -/
def getRotDof (memberId nodeId : String) (dofMap : DofMap) (jointNodeIds : List String) :
    Option Int :=
  if nodeId ∈ jointNodeIds then jsGet dofMap.hingeDof (memberId, nodeId)
  else (jsGet dofMap.nodeDof nodeId).map (·.2.2)

-- ===== Element matrices (fem.ts) =====

/-- Entry (i, j) of a 6×6 matrix given as a row list (0 outside). -/
def mat6 (rows : List (List ℚ)) (i j : Nat) : ℚ :=
  (rows.getD i []).getD j 0

/-- `localStiffness(L, EA, EI)`: local 6×6 frame-element stiffness,
DOF order [ua, va, θa, ub, vb, θb]. -/
def localStiffness (L EA EI : ℚ) : List (List ℚ) :=
  let a := EA / L
  let b := 12 * EI / (L * L * L)
  let c := 6 * EI / (L * L)
  let d := 4 * EI / L
  let e := 2 * EI / L
  [[a, 0, 0, -a, 0, 0],
   [0, b, c, 0, -b, c],
   [0, c, d, 0, -c, e],
   [-a, 0, 0, a, 0, 0],
   [0, -b, -c, 0, b, -c],
   [0, c, e, 0, -c, d]]

/-- `transformMatrix(c, s)`: block rotation, `q_local = T * q_global`. -/
def transformMatrix (c s : ℚ) : List (List ℚ) :=
  [[c, s, 0, 0, 0, 0],
   [-s, c, 0, 0, 0, 0],
   [0, 0, 1, 0, 0, 0],
   [0, 0, 0, c, s, 0],
   [0, 0, 0, -s, c, 0],
   [0, 0, 0, 0, 0, 1]]

/-- The dense global matrix / vector, indexed by DOF number. -/
abbrev GlobalMat : Type := Int → Int → ℚ

abbrev GlobalVec : Type := Int → ℚ

def zeroMat : GlobalMat := fun _ _ => 0

def zeroVec : GlobalVec := fun _ => 0

def addMat (K : GlobalMat) (i j : Int) (v : ℚ) : GlobalMat :=
  fun p q => if p = i ∧ q = j then K p q + v else K p q

def addVec (F : GlobalVec) (i : Int) (v : ℚ) : GlobalVec :=
  fun p => if p = i then F p + v else F p

/-- `KT[i][j] = Σ_k kl[i][k] * T[k][j]` (the intermediate product of
`assembleMember`). -/
def klT (kl T : List (List ℚ)) (i j : Nat) : ℚ :=
  ∑ k ∈ Finset.range 6, mat6 kl i k * mat6 T k j

/-- `v = Σ_k T[k][i] * KT[k][j]`, i.e. entry (i,j) of `Tᵀ·K_local·T`. -/
def tKlT (kl T : List (List ℚ)) (i j : Nat) : ℚ :=
  ∑ k ∈ Finset.range 6, mat6 T k i * klT kl T k j

/-- `assembleMember`: `K[dofs[i]][dofs[j]] += (Tᵀ·kl·T)[i][j]` for all
i, j < 6, written as the pointwise closed form of the source's nested
`+=` loops (repeated global indices accumulate, as in the source). -/
def assembleMember (K : GlobalMat) (kl T : List (List ℚ)) (dofs : List Int) : GlobalMat :=
  fun p q =>
    K p q +
      ∑ i ∈ Finset.range 6, ∑ j ∈ Finset.range 6,
        if dofs.getD i 0 = p ∧ dofs.getD j 0 = q then tKlT kl T i j else 0

-- ===== Load vector (fem.ts) =====

/-- `applyPointLoad`: adds the global (fx, fy) pair at the node's
translational DOFs; a missing node id is explicitly guarded in the source
(`if (!dofs) return`), so the load is silently dropped. -/
def applyPointLoad (ops : RealOps) (F : GlobalVec) (dofMap : DofMap) (nodeId : String)
    (angleDeg magnitude : ℚ) : GlobalVec :=
  match jsGet dofMap.nodeDof nodeId with
  | none => F
  | some dofs =>
    let fxy := loadVector ops angleDeg magnitude
    addVec (addVec F dofs.1 fxy.1) dofs.2.1 fxy.2

/-- `applyDistLoad`: fixed-end forces of a uniform load, transformed back to
global axes; `none` models the `TypeError` of the source's non-null
assertions on unknown node ids. -/
def applyDistLoad (ops : RealOps) (F : GlobalVec) (dofMap : DofMap)
    (memberId nodeIdA nodeIdB : String) (c s L angleDeg magnitude : ℚ)
    (jointNodeIds : List String) : Option GlobalVec := do
  let w := loadVector ops angleDeg magnitude
  let qu := w.1 * c + w.2 * s
  let qv := -w.1 * s + w.2 * c
  let fua := qu * L / 2
  let fub := qu * L / 2
  let fva := qv * L / 2
  let ma := qv * L * L / 12
  let fvb := qv * L / 2
  let mb := -(qv * L * L) / 12
  let fxA := fua * c - fva * s
  let fyA := fua * s + fva * c
  let fxB := fub * c - fvb * s
  let fyB := fub * s + fvb * c
  let dofsA ← jsGet dofMap.nodeDof nodeIdA
  let dofsB ← jsGet dofMap.nodeDof nodeIdB
  let tA ← getRotDof memberId nodeIdA dofMap jointNodeIds
  let tB ← getRotDof memberId nodeIdB dofMap jointNodeIds
  pure (addVec (addVec (addVec (addVec (addVec (addVec F dofsA.1 fxA) dofsA.2.1 fyA)
    tA ma) dofsB.1 fxB) dofsB.2.1 fyB) tB mb)

-- ===== Boundary conditions (fem.ts) =====

def PENALTY : ℚ := 1e15

/-- One support's penalty contributions (`applyBoundaryConditions` body). -/
def bcStep (ops : RealOps) (dofMap : DofMap) (members : List Member)
    (jointNodeIds : List String) (K : GlobalMat) (sup : Support) : GlobalMat :=
  match jsGet dofMap.nodeDof sup.nodeId with
  | none => K
  | some dofs =>
    let ux := dofs.1
    let uy := dofs.2.1
    let rotOrMinus := dofs.2.2
    match sup.type with
    | .fix =>
      let K1 := addMat (addMat K ux ux PENALTY) uy uy PENALTY
      let K2 := if rotOrMinus ≠ -1 then addMat K1 rotOrMinus rotOrMinus PENALTY else K1
      if sup.nodeId ∈ jointNodeIds then
        members.foldl
          (fun Ka m =>
            [m.a, m.b].foldl
              (fun Kb nid =>
                if nid = sup.nodeId then
                  match jsGet dofMap.hingeDof (m.id, nid) with
                  | some hd => addMat Kb hd hd PENALTY
                  | none => Kb
                else Kb)
              Ka)
          K2
      else K2
    | .pin => addMat (addMat K ux ux PENALTY) uy uy PENALTY
    | .roller =>
      let nv := rollerConstraintVector ops sup.angleDeg
      addMat (addMat (addMat (addMat K ux ux (PENALTY * nv.1 * nv.1))
        ux uy (PENALTY * nv.1 * nv.2)) uy ux (PENALTY * nv.2 * nv.1))
        uy uy (PENALTY * nv.2 * nv.2)

/-- `applyBoundaryConditions`: penalty terms for every support in order. -/
def applyBoundaryConditions (ops : RealOps) (K : GlobalMat) (supports : List Support)
    (dofMap : DofMap) (members : List Member) (jointNodeIds : List String) : GlobalMat :=
  supports.foldl (bcStep ops dofMap members jointNodeIds) K

-- ===== Linear solve (ml-matrix `solve`) =====

/-- First row with a nonzero leading entry, and the remaining rows in order. -/
def pickPivot : List (List ℚ) → Option (List ℚ × List (List ℚ))
  | [] => none
  | r :: rs =>
    if r.headD 0 ≠ 0 then some (r, rs)
    else (pickPivot rs).map fun pr => (pr.1, r :: pr.2)

/-- Exact Gaussian elimination on augmented rows (n unknowns); `none` models
the singular-matrix exception thrown by ml-matrix's `solve`.  (ml-matrix
uses LU with partial pivoting; over exact rationals any nonzero-pivot
elimination succeeds on exactly the nonsingular systems and returns the
unique solution, so only the pivot order differs.) -/
def gaussSolve : Nat → List (List ℚ) → Option (List ℚ)
  | 0, _ => some []
  | n + 1, rows =>
    match pickPivot rows with
    | none => none
    | some (p, rest) =>
      let piv := p.headD 0
      let pn := p.tail.map (· / piv)
      let restE := rest.map fun r =>
        List.zipWith (fun rj pj => rj - r.headD 0 * pj) r.tail pn
      match gaussSolve n restE with
      | none => none
      | some xs =>
        some ((pn.getD n 0 - (List.zipWith (fun cq x => cq * x) pn xs).sum) :: xs)

/-- `solve(new Matrix(K), Matrix.columnVector(F))` on the N×N system. -/
def lsolve (N : Nat) (K : GlobalMat) (F : GlobalVec) : Option (List ℚ) :=
  gaussSolve N
    ((List.range N).map fun (i : ℕ) =>
      ((List.range N).map fun (j : ℕ) => K (i : Int) (j : Int)) ++ [F (i : Int)])

/-- `Math.max(...dispArray.map(Math.abs))` (over the nonempty arrays that
reach this point the 0 base line is the same as the JS −∞ base, since every
`|x|` is nonnegative). -/
def maxAbs (l : List ℚ) : ℚ :=
  l.foldl (fun acc x => max acc |x|) 0

/-- `disp[i]` for a JS index that is an `Int`; never reads out of range at
any reachable call site. -/
def qAt (l : List ℚ) (i : Int) : ℚ :=
  if i < 0 then 0 else l.getD i.toNat 0

-- ===== Section forces (fem.ts calcElementForces) =====

/-- Accumulator of the source's single pass over `distLoadsForMember`:
summed local intensities and the six fixed-end-force corrections. -/
structure FixedEndAcc where
  qu : ℚ
  qv : ℚ
  f0 : ℚ
  f1 : ℚ
  f2 : ℚ
  f3 : ℚ
  f4 : ℚ
  f5 : ℚ
deriving DecidableEq, Repr

def fixedEndStep (ops : RealOps) (c s L : ℚ) (acc : FixedEndAcc) (dl : DistLoad) :
    FixedEndAcc :=
  let w := loadVector ops dl.angleDeg dl.magnitude
  let qu := w.1 * c + w.2 * s
  let qv := -w.1 * s + w.2 * c
  { qu := acc.qu + qu, qv := acc.qv + qv,
    f0 := acc.f0 + -(qu * L) / 2, f1 := acc.f1 + -(qv * L) / 2,
    f2 := acc.f2 + -(qv * L * L) / 12, f3 := acc.f3 + -(qu * L) / 2,
    f4 := acc.f4 + -(qv * L) / 2, f5 := acc.f5 + qv * L * L / 12 }

def SAMPLES : Nat := 11

/-- `calcElementForces`: local end forces from the solved displacements,
fixed-end correction for distributed loads, sign convention, and the 11
sample points.  The source's non-null assertions on the DOF lookups cannot
miss at its call sites (`solveFem` resolves the same keys first), so the
lookups take a defaulted value here. -/
def calcElementForces (ops : RealOps) (memberId nodeIdA nodeIdB : String)
    (c s L EA EI : ℚ) (disp : List ℚ) (dofMap : DofMap) (jointNodeIds : List String)
    (distLoadsForMember : List DistLoad) : ElementResult :=
  let dofsA := (jsGet dofMap.nodeDof nodeIdA).getD (0, 0, -1)
  let dofsB := (jsGet dofMap.nodeDof nodeIdB).getD (0, 0, -1)
  let tAIdx := (getRotDof memberId nodeIdA dofMap jointNodeIds).getD (-1)
  let tBIdx := (getRotDof memberId nodeIdB dofMap jointNodeIds).getD (-1)
  let uxA := qAt disp dofsA.1
  let uyA := qAt disp dofsA.2.1
  let thA := qAt disp tAIdx
  let uxB := qAt disp dofsB.1
  let uyB := qAt disp dofsB.2.1
  let thB := qAt disp tBIdx
  let ql := [uxA * c + uyA * s, -uxA * s + uyA * c, thA,
             uxB * c + uyB * s, -uxB * s + uyB * c, thB]
  let kl := localStiffness L EA EI
  let fl := (List.range 6).map fun i => ∑ j ∈ Finset.range 6, mat6 kl i j * ql.getD j 0
  let acc := distLoadsForMember.foldl (fixedEndStep ops c s L)
    { qu := 0, qv := 0, f0 := 0, f1 := 0, f2 := 0, f3 := 0, f4 := 0, f5 := 0 }
  let fa := fun i : Nat => fl.getD i 0 +
    [acc.f0, acc.f1, acc.f2, acc.f3, acc.f4, acc.f5].getD i 0
  let Na := fa 0
  let Qa := -fa 1
  let Ma := fa 2
  let Nb := -fa 3
  let Qb := -fa 4
  let Mb := -fa 5
  let points := (List.range SAMPLES).map fun (i : ℕ) =>
    let t := (i : ℚ) / ((SAMPLES : ℚ) - 1)
    let x := t * L
    { t := t, N := Na - acc.qu * x, Q := Qa - acc.qv * x,
      M := Ma + Qa * x - acc.qv * x * x / 2 : SectionPoint }
  { memberId := memberId, Na := Na, Qa := Qa, Ma := Ma, Nb := Nb, Qb := Qb, Mb := Mb,
    points := points }

-- ===== Main solver (fem.ts solveFem), staged =====

/-- Stiffness-assembly step of `solveFem` for one member; `none` models the
`TypeError` thrown by `nodeMap.get(m.a)!.x` / `nodeMap.get(m.b)!.x` when a
member endpoint matches no node. -/
def assembleStep (ops : RealOps) (nodeMap : List (String × Node2D)) (dofMap : DofMap)
    (jointNodeIds : List String) (K : GlobalMat) (m : Member) : Option GlobalMat := do
  let nA ← jsGet nodeMap m.a
  let nB ← jsGet nodeMap m.b
  let g := memberGeom ops nA.x nA.y nB.x nB.y
  if g.L < 1e-10 then pure K
  else do
    let tAIdx ← getRotDof m.id m.a dofMap jointNodeIds
    let tBIdx ← getRotDof m.id m.b dofMap jointNodeIds
    let dA ← jsGet dofMap.nodeDof m.a
    let dB ← jsGet dofMap.nodeDof m.b
    pure (assembleMember K (localStiffness g.L DEFAULT_SECTION.EA DEFAULT_SECTION.EI)
      (transformMatrix g.c g.s) [dA.1, dA.2.1, tAIdx, dB.1, dB.2.1, tBIdx])

def nodeMapOf (input : FemInput) : List (String × Node2D) :=
  input.nodes.map fun n => (n.id, n)

def jointNodeIdsOf (input : FemInput) : List String :=
  input.joints.map (·.nodeId)

def dofMapOf (input : FemInput) : DofMap :=
  buildDofMap input.nodes input.members input.joints

/-- The member-assembly loop of `solveFem`, starting from the zero matrix. -/
def assembleStiffness (ops : RealOps) (input : FemInput) : Option GlobalMat :=
  input.members.foldlM
    (assembleStep ops (nodeMapOf input) (dofMapOf input) (jointNodeIdsOf input)) zeroMat

/-- `Map`-grouping of distributed loads by member id (`distLoadsByMember`):
insertion order of keys is the order of first occurrence, later loads are
appended to their key's group. -/
def groupDistLoads (dls : List DistLoad) : List (String × List DistLoad) :=
  dls.foldl
    (fun acc dl =>
      if acc.any fun p => p.1 == dl.memberId then
        acc.map fun p => if p.1 = dl.memberId then (p.1, p.2 ++ [dl]) else p
      else acc ++ [(dl.memberId, [dl])])
    []

/-- One grouped-dist-load iteration of `solveFem` (`if (!m) continue` drops
groups whose member id matches no member). -/
def distGroupStep (ops : RealOps) (members : List Member)
    (nodeMap : List (String × Node2D)) (dofMap : DofMap) (jointNodeIds : List String)
    (F : GlobalVec) (grp : String × List DistLoad) : Option GlobalVec :=
  match members.find? (fun m => m.id == grp.1) with
  | none => pure F
  | some m => do
    let nA ← jsGet nodeMap m.a
    let nB ← jsGet nodeMap m.b
    let g := memberGeom ops nA.x nA.y nB.x nB.y
    grp.2.foldlM
      (fun Fa dl =>
        applyDistLoad ops Fa dofMap m.id m.a m.b g.c g.s g.L dl.angleDeg dl.magnitude
          jointNodeIds)
      F

/-- The load-vector phase of `solveFem`: point loads, then grouped
distributed loads. -/
def assembleLoads (ops : RealOps) (input : FemInput) : Option GlobalVec :=
  let F1 := input.pointLoads.foldl
    (fun F pl => applyPointLoad ops F (dofMapOf input) pl.nodeId pl.angleDeg pl.magnitude)
    zeroVec
  (groupDistLoads input.distLoads).foldlM
    (distGroupStep ops input.members (nodeMapOf input) (dofMapOf input)
      (jointNodeIdsOf input))
    F1

/-- Stiffness assembly, load assembly and boundary conditions: the global
system `(K, F)` that `solveFem` hands to the linear solver. -/
def buildSystem (ops : RealOps) (input : FemInput) : Option (GlobalMat × GlobalVec) := do
  let K ← assembleStiffness ops input
  let F ← assembleLoads ops input
  pure (applyBoundaryConditions ops K input.supports (dofMapOf input) input.members
    (jointNodeIdsOf input), F)

/-- The solved displacement vector of `solveFem`, when the pipeline up to and
including the linear solve succeeds without an exception. -/
def dispOf (ops : RealOps) (input : FemInput) : Option (List ℚ) := do
  let KF ← buildSystem ops input
  lsolve (dofMapOf input).totalDof KF.1 KF.2

/-- The element-forces loop: skips degenerate members, `none` models the
unguarded node lookups. -/
def elementsStep (ops : RealOps) (input : FemInput) (u : List ℚ)
    (acc : List ElementResult) (m : Member) : Option (List ElementResult) := do
  let nA ← jsGet (nodeMapOf input) m.a
  let nB ← jsGet (nodeMapOf input) m.b
  let g := memberGeom ops nA.x nA.y nB.x nB.y
  if g.L < 1e-10 then pure acc
  else
    pure (acc ++ [calcElementForces ops m.id m.a m.b g.c g.s g.L DEFAULT_SECTION.EA
      DEFAULT_SECTION.EI u (dofMapOf input) (jointNodeIdsOf input)
      ((jsGet (groupDistLoads input.distLoads) m.id).getD [])])

/-- `(K·u − F)` at one DOF: the reaction residual of `solveFem`. -/
def residualAt (N : Nat) (K : GlobalMat) (F : GlobalVec) (u : List ℚ) (dof : Int) : ℚ :=
  (∑ j ∈ Finset.range N, K dof (j : Int) * u.getD j 0) - F dof

/-- One reaction record: `(K·u − F)` at the support node's translational
DOFs, and at its rotation DOF only for fix supports at nodes with a real
(non-sentinel) rotation DOF. -/
def reactionEntry (input : FemInput) (K : GlobalMat) (F : GlobalVec) (u : List ℚ)
    (sup : Support) (dofs : Int × Int × Int) : ReactionResult :=
  { supportId := sup.id, nodeId := sup.nodeId,
    fx := residualAt (dofMapOf input).totalDof K F u dofs.1,
    fy := residualAt (dofMapOf input).totalDof K F u dofs.2.1,
    m := if sup.type = .fix ∧ dofs.2.2 ≠ -1 then
           residualAt (dofMapOf input).totalDof K F u dofs.2.2
         else 0 }

/-- The reactions loop of `solveFem` (supports at unknown nodes are skipped
by the explicit `if (!dofs) continue` guard). -/
def reactionsOf (input : FemInput) (K : GlobalMat) (F : GlobalVec) (u : List ℚ) :
    List ReactionResult :=
  input.supports.foldl
    (fun acc sup =>
      match jsGet (dofMapOf input).nodeDof sup.nodeId with
      | none => acc
      | some dofs => acc ++ [reactionEntry input K F u sup dofs])
    []

/-- The nodal-displacement summary of `solveFem`. -/
def displacementsOf (input : FemInput) (u : List ℚ) : List DisplacementResult :=
  input.nodes.map fun n =>
    let d := (jsGet (dofMapOf input).nodeDof n.id).getD (0, 0, -1)
    { nodeId := n.id, ux := qAt u d.1, uy := qAt u d.2.1,
      rot := if d.2.2 ≠ -1 then qAt u d.2.2 else 0 }

/-- Post-processing of a solved displacement vector into the success
payload. -/
def postProcess (ops : RealOps) (input : FemInput) (K : GlobalMat) (F : GlobalVec)
    (u : List ℚ) : Option FemResult := do
  let els ← input.members.foldlM (elementsStep ops input u) []
  pure (FemResult.ok els (reactionsOf input K F u) (displacementsOf input u))

def singularMessage : String := "剛性行列が特異です。構造が不安定な可能性があります。"

def unstableMessage : String := "構造が不安定です。支点条件を確認してください。"

/-- `solveFem` of fem.ts.  `none` models an exception escaping the function
(the source's only `try`/`catch` wraps the linear solve and resurfaces as
the `singular` branch below; every other thrown `TypeError` propagates). -/
def solveFem (ops : RealOps) (input : FemInput) : Option FemResult :=
  let validation := validateModel input
  if validation.ok then
    match buildSystem ops input with
    | none => none
    | some KF =>
      match lsolve (dofMapOf input).totalDof KF.1 KF.2 with
      | none => some (.failure .singular singularMessage)
      | some dispArray =>
        -- source: `!isFinite(maxDisp) || maxDisp > 1e10`; exact rationals
        -- are always finite, so only the threshold test remains
        if maxAbs dispArray > 1e10 then some (.failure .unstable unstableMessage)
        else postProcess ops input KF.1 KF.2 dispArray
  else
    some (.failure .validation
      (String.intercalate "\n"
        (((validateModel input).issues.filter fun i => decide (i.level = .error)).map
          (·.message))))

-- ===== Observations on solver results and stages =====

/-- Whether a solver outcome is the success payload. -/
def resultIsOk : Option FemResult → Bool
  | some (.ok _ _ _) => true
  | _ => false

/-- The reactions of a success outcome (junk `[]` otherwise). -/
def reactionsOfResult : Option FemResult → List ReactionResult
  | some (.ok _ r _) => r
  | _ => []

/-- The post-boundary-condition global stiffness matrix of a run (junk zero
matrix when assembly throws). -/
def KOf (ops : RealOps) (input : FemInput) : GlobalMat :=
  match buildSystem ops input with
  | some KF => KF.1
  | none => zeroMat

/-- The assembled global load vector of a run (junk zero vector when
assembly throws). -/
def FOf (ops : RealOps) (input : FemInput) : GlobalVec :=
  match buildSystem ops input with
  | some KF => KF.2
  | none => zeroVec

/-- The solved displacement vector of a run (junk `[]` when no solution was
produced). -/
def uOf (ops : RealOps) (input : FemInput) : List ℚ :=
  (dispOf ops input).getD []

/-- The global stiffness matrix right after member assembly (junk zero
matrix when assembly throws). -/
def assembledKOf (ops : RealOps) (input : FemInput) : GlobalMat :=
  (assembleStiffness ops input).getD zeroMat

/-- The global stiffness matrix after boundary-condition enforcement. -/
def constrainedKOf (ops : RealOps) (input : FemInput) : GlobalMat :=
  applyBoundaryConditions ops (assembledKOf ops input) input.supports (dofMapOf input)
    input.members (jointNodeIdsOf input)

/-- Summed local axial intensity of a member's distributed loads. -/
def qAxialSum (ops : RealOps) (c s : ℚ) (dls : List DistLoad) : ℚ :=
  (dls.map fun dl =>
    (loadVector ops dl.angleDeg dl.magnitude).1 * c +
    (loadVector ops dl.angleDeg dl.magnitude).2 * s).sum

/-- Summed local transverse intensity of a member's distributed loads. -/
def qTransSum (ops : RealOps) (c s : ℚ) (dls : List DistLoad) : ℚ :=
  (dls.map fun dl =>
    -(loadVector ops dl.angleDeg dl.magnitude).1 * s +
    (loadVector ops dl.angleDeg dl.magnitude).2 * c).sum

-- ===== Concrete instantiation for closed statements =====

/-- A concrete interpretation of the float primitives, exact on the values
the concrete models below produce: perfect-square radicands and quadrant
angles (0°, 90°, 180°, 270°/−90°). -/
def exactOps : RealOps where
  sqrt := fun q => (Nat.sqrt q.num.toNat : ℚ) / (Nat.sqrt q.den : ℚ)
  sinDeg := fun d =>
    if d = 0 then 0 else if d = 90 then 1 else if d = 180 then 0
    else if d = 270 ∨ d = -90 then -1 else 0
  cosDeg := fun d =>
    if d = 0 then 1 else if d = 90 then 0 else if d = 180 then -1
    else if d = 270 ∨ d = -90 then 0 else 1

/-- A cantilever: two nodes a unit apart, one member, a fix support at the left
node, a downward tip load of magnitude 10. -/
def cantilever : FemInput where
  nodes := [{ id := "n1", x := 0, y := 0 }, { id := "n2", x := 1, y := 0 }]
  members := [{ id := "m1", a := "n1", b := "n2" }]
  supports := [{ id := "s1", nodeId := "n1", type := .fix, angleDeg := 0 }]
  joints := []
  pointLoads := [{ id := "p1", nodeId := "n2", angleDeg := 0, magnitude := 10 }]
  distLoads := []
  momentLoads := []

/-- The same cantilever under a tip load of magnitude 10²⁰: the exact tip
deflection PL³/(3EI) ≈ 3.3·10²¹ exceeds the 10¹⁰ sanity threshold. -/
def cantileverHuge : FemInput :=
  { cantilever with
    pointLoads := [{ id := "p1", nodeId := "n2", angleDeg := 0, magnitude := 1e20 }] }

/-- A model that passes validation although member "m2" has an endpoint
("ghost") matching no node: every node is used by a member, the used-node
network is connected, the fix support supplies 3 constraints, and the
zero-length check skips members with unknown endpoints. -/
def ghostMemberModel : FemInput where
  nodes := [{ id := "n1", x := 0, y := 0 }, { id := "n2", x := 1, y := 0 }]
  members := [{ id := "m1", a := "n1", b := "n2" },
              { id := "m2", a := "n2", b := "ghost" }]
  supports := [{ id := "s1", nodeId := "n1", type := .fix, angleDeg := 0 }]
  joints := []
  pointLoads := []
  distLoads := []
  momentLoads := []

/-- A model with no supports at all (and at least one member). -/
def noSupportModel : FemInput where
  nodes := [{ id := "n1", x := 0, y := 0 }, { id := "n2", x := 1, y := 0 }]
  members := [{ id := "m1", a := "n1", b := "n2" }]
  supports := []
  joints := []
  pointLoads := []
  distLoads := []
  momentLoads := []

/-- One roller only: a single constraint, below the threshold of 3. -/
def oneRollerModel : FemInput :=
  { noSupportModel with
    supports := [{ id := "s1", nodeId := "n1", type := .roller, angleDeg := 0 }] }

/-- The empty model. -/
def emptyModel : FemInput where
  nodes := []
  members := []
  supports := []
  joints := []
  pointLoads := []
  distLoads := []
  momentLoads := []

/-- A point load aimed at a node id that does not exist. -/
def ghostLoad : PointLoad := { id := "pg", nodeId := "ghost", angleDeg := 0, magnitude := 5 }

/-- The cantilever with the dangling point load appended. -/
def cantileverGhostLoad : FemInput :=
  { cantilever with pointLoads := cantilever.pointLoads ++ [ghostLoad] }

-- ===== Lemmas: key sets of the JS maps =====

theorem jsGet_isSome_iff {α β : Type} [DecidableEq α] (l : List (α × β)) (k : α) :
    (jsGet l k).isSome ↔ k ∈ l.map (·.1) := by
  induction l with
  | nil => simp [jsGet]
  | cons p rest ih =>
    obtain ⟨a, b⟩ := p
    simp only [jsGet, List.map_cons, List.mem_cons]
    cases h : jsGet rest k with
    | some v =>
      rw [h] at ih
      simp only [Option.isSome_some, true_iff] at ih
      simp [ih]
    | none =>
      rw [h] at ih
      have ihn : k ∉ rest.map (·.1) := by
        intro hmem
        have := ih.mpr hmem
        simp at this
      by_cases hak : a = k
      · subst hak
        simp
      · rw [if_neg hak]
        simp only [Option.isSome_none, Bool.false_eq_true, false_iff]
        rintro (rfl | hmem)
        · exact hak rfl
        · exact ihn hmem

theorem jsGet_eq_none {α β : Type} [DecidableEq α] {l : List (α × β)} {k : α}
    (h : k ∉ l.map (·.1)) : jsGet l k = none := by
  rw [← Option.not_isSome_iff_eq_none]
  rw [jsGet_isSome_iff]
  exact h

theorem jsGet_isSome_of_mem {α β : Type} [DecidableEq α] {l : List (α × β)} {k : α}
    (h : k ∈ l.map (·.1)) : (jsGet l k).isSome := (jsGet_isSome_iff l k).mpr h

theorem nodeMapOf_isSome_iff (input : FemInput) (k : String) :
    (jsGet (nodeMapOf input) k).isSome ↔ k ∈ input.nodes.map (·.id) := by
  rw [jsGet_isSome_iff, nodeMapOf, List.map_map]
  rfl

theorem nodeDofStep_fold_keys (jointNodeIds : List String) (nodes : List Node2D) :
    ∀ st : List (String × (Int × Int × Int)) × Nat,
      ((nodes.foldl (nodeDofStep jointNodeIds) st).1).map (·.1) =
        st.1.map (·.1) ++ nodes.map (·.id) := by
  induction nodes with
  | nil => intro st; simp
  | cons n ns ih =>
    intro st
    rw [List.foldl_cons, ih]
    by_cases h : n.id ∈ jointNodeIds <;> simp [nodeDofStep, h]

/-- The node-DOF map is keyed by exactly the model's node ids, in order. -/
theorem buildDofMap_nodeDof_keys (nodes : List Node2D) (members : List Member)
    (joints : List Joint) :
    (buildDofMap nodes members joints).nodeDof.map (·.1) = nodes.map (·.id) := by
  show ((nodes.foldl (nodeDofStep (joints.map (·.nodeId))) ([], 0)).1).map (·.1) = _
  rw [nodeDofStep_fold_keys]
  rfl

theorem nodeDof_isSome_iff (input : FemInput) (k : String) :
    (jsGet (dofMapOf input).nodeDof k).isSome ↔ k ∈ input.nodes.map (·.id) := by
  rw [jsGet_isSome_iff, dofMapOf, buildDofMap_nodeDof_keys]

theorem hingeEndStep_fold_keys (jointNodeIds : List String) (memberId : String)
    (nids : List String) :
    ∀ st : List ((String × String) × Int) × Nat,
      ((nids.foldl (hingeEndStep jointNodeIds memberId) st).1).map (·.1) =
        st.1.map (·.1) ++
          (nids.filter fun nid => decide (nid ∈ jointNodeIds)).map ((memberId, ·)) := by
  induction nids with
  | nil => intro st; simp
  | cons nid ns ih =>
    intro st
    rw [List.foldl_cons, ih]
    by_cases h : nid ∈ jointNodeIds <;> simp [hingeEndStep, h, List.filter_cons]

theorem hingeDofStep_fold_keys (jointNodeIds : List String) (members : List Member) :
    ∀ st : List ((String × String) × Int) × Nat,
      ((members.foldl (hingeDofStep jointNodeIds) st).1).map (·.1) =
        st.1.map (·.1) ++
          members.flatMap (fun m =>
            (([m.a, m.b].filter fun nid => decide (nid ∈ jointNodeIds)).map ((m.id, ·)))) := by
  induction members with
  | nil => intro st; simp
  | cons m ms ih =>
    intro st
    rw [List.foldl_cons, ih, hingeDofStep, hingeEndStep_fold_keys]
    simp

/-- Every (member, hinge-endpoint) pair is keyed in the hinge-DOF map. -/
theorem hingeDof_mem_keys (input : FemInput) {m : Member} (hm : m ∈ input.members)
    {nid : String} (hnid : nid = m.a ∨ nid = m.b)
    (hj : nid ∈ jointNodeIdsOf input) :
    (m.id, nid) ∈ (dofMapOf input).hingeDof.map (·.1) := by
  show (m.id, nid) ∈
    ((input.members.foldl (hingeDofStep (input.joints.map (·.nodeId)))
      ([], (input.nodes.foldl (nodeDofStep (input.joints.map (·.nodeId))) ([], 0)).2)).1).map (·.1)
  rw [hingeDofStep_fold_keys]
  refine List.mem_append_right _ (List.mem_flatMap.mpr ⟨m, hm, ?_⟩)
  refine List.mem_map.mpr ⟨nid, ?_, rfl⟩
  refine List.mem_filter.mpr ⟨?_, by simpa [jointNodeIdsOf] using hj⟩
  rcases hnid with h | h <;> simp [h]

/-- `getRotDof` cannot miss for a member endpoint that is a model node. -/
theorem getRotDof_isSome (input : FemInput) {m : Member} (hm : m ∈ input.members)
    {nid : String} (hnid : nid = m.a ∨ nid = m.b)
    (hids : nid ∈ input.nodes.map (·.id)) :
    (getRotDof m.id nid (dofMapOf input) (jointNodeIdsOf input)).isSome := by
  rw [getRotDof]
  by_cases hj : nid ∈ jointNodeIdsOf input
  · rw [if_pos hj]
    exact jsGet_isSome_of_mem (hingeDof_mem_keys input hm hnid hj)
  · rw [if_neg hj]
    obtain ⟨v, hv⟩ := Option.isSome_iff_exists.mp ((nodeDof_isSome_iff input nid).mpr hids)
    rw [hv]
    rfl

-- ===== Lemmas: Option-valued folds =====

theorem foldlM_option_isSome {α β : Type} {f : β → α → Option β} {l : List α}
    (h : ∀ b, ∀ a ∈ l, (f b a).isSome) :
    ∀ init : β, (l.foldlM f init).isSome := by
  induction l with
  | nil => intro init; rw [List.foldlM_nil]; rfl
  | cons a as ih =>
    intro init
    rw [List.foldlM_cons]
    obtain ⟨b, hb⟩ := Option.isSome_iff_exists.mp (h init a (List.mem_cons_self a as))
    rw [hb]
    exact ih (fun b' a' ha' => h b' a' (List.mem_cons_of_mem a ha')) b

theorem foldlM_option_isSome_of_mem {α β : Type} {f : β → α → Option β} {l : List α} :
    ∀ init : β, (l.foldlM f init).isSome → ∀ a ∈ l, ∃ b, (f b a).isSome := by
  induction l with
  | nil => intro _ _ a ha; simp at ha
  | cons x xs ih =>
    intro init hsome a ha
    rw [List.foldlM_cons] at hsome
    cases hfx : f init x with
    | none => rw [hfx] at hsome; simp at hsome
    | some b =>
      rw [hfx] at hsome
      have hsome2 : (xs.foldlM f b).isSome := hsome
      rcases List.mem_cons.mp ha with rfl | ha2
      · exact ⟨init, by simp [hfx]⟩
      · exact ih b hsome2 a ha2

-- ===== Lemmas: where the solver can and cannot throw =====

/-- Every member endpoint names an existing node. -/
def endpointsExist (input : FemInput) : Prop :=
  ∀ m ∈ input.members,
    m.a ∈ input.nodes.map (·.id) ∧ m.b ∈ input.nodes.map (·.id)

instance (input : FemInput) : Decidable (endpointsExist input) := by
  unfold endpointsExist
  infer_instance

theorem someBind {α β : Type} (a : α) (f : α → Option β) : (some a >>= f) = f a := rfl

theorem noneBind {α β : Type} (f : α → Option β) : ((none : Option α) >>= f) = none := rfl

theorem assembleStep_isSome (ops : RealOps) (input : FemInput) {m : Member}
    (hm : m ∈ input.members) (ha : m.a ∈ input.nodes.map (·.id))
    (hb : m.b ∈ input.nodes.map (·.id)) (K : GlobalMat) :
    (assembleStep ops (nodeMapOf input) (dofMapOf input) (jointNodeIdsOf input) K m).isSome := by
  obtain ⟨nA, hnA⟩ := Option.isSome_iff_exists.mp ((nodeMapOf_isSome_iff input m.a).mpr ha)
  obtain ⟨nB, hnB⟩ := Option.isSome_iff_exists.mp ((nodeMapOf_isSome_iff input m.b).mpr hb)
  obtain ⟨tA, htA⟩ := Option.isSome_iff_exists.mp (getRotDof_isSome input hm (Or.inl rfl) ha)
  obtain ⟨tB, htB⟩ := Option.isSome_iff_exists.mp (getRotDof_isSome input hm (Or.inr rfl) hb)
  obtain ⟨dA, hdA⟩ := Option.isSome_iff_exists.mp ((nodeDof_isSome_iff input m.a).mpr ha)
  obtain ⟨dB, hdB⟩ := Option.isSome_iff_exists.mp ((nodeDof_isSome_iff input m.b).mpr hb)
  rw [assembleStep]
  simp only [hnA, hnB, htA, htB, hdA, hdB, someBind]
  split <;> rfl

theorem applyDistLoad_isSome (ops : RealOps) (input : FemInput) {m : Member}
    (hm : m ∈ input.members) (ha : m.a ∈ input.nodes.map (·.id))
    (hb : m.b ∈ input.nodes.map (·.id)) (F : GlobalVec) (c s L angleDeg magnitude : ℚ) :
    (applyDistLoad ops F (dofMapOf input) m.id m.a m.b c s L angleDeg magnitude
      (jointNodeIdsOf input)).isSome := by
  obtain ⟨tA, htA⟩ := Option.isSome_iff_exists.mp (getRotDof_isSome input hm (Or.inl rfl) ha)
  obtain ⟨tB, htB⟩ := Option.isSome_iff_exists.mp (getRotDof_isSome input hm (Or.inr rfl) hb)
  obtain ⟨dA, hdA⟩ := Option.isSome_iff_exists.mp ((nodeDof_isSome_iff input m.a).mpr ha)
  obtain ⟨dB, hdB⟩ := Option.isSome_iff_exists.mp ((nodeDof_isSome_iff input m.b).mpr hb)
  rw [applyDistLoad]
  simp only [htA, htB, hdA, hdB, someBind]
  rfl

theorem distGroupStep_isSome (ops : RealOps) (input : FemInput)
    (h : endpointsExist input) (F : GlobalVec) (grp : String × List DistLoad) :
    (distGroupStep ops input.members (nodeMapOf input) (dofMapOf input)
      (jointNodeIdsOf input) F grp).isSome := by
  rw [distGroupStep]
  cases hfind : input.members.find? (fun m => m.id == grp.1) with
  | none => rfl
  | some m =>
    have hm : m ∈ input.members := List.mem_of_find?_eq_some hfind
    obtain ⟨ha, hb⟩ := h m hm
    obtain ⟨nA, hnA⟩ := Option.isSome_iff_exists.mp ((nodeMapOf_isSome_iff input m.a).mpr ha)
    obtain ⟨nB, hnB⟩ := Option.isSome_iff_exists.mp ((nodeMapOf_isSome_iff input m.b).mpr hb)
    simp only [hnA, hnB, someBind]
    exact foldlM_option_isSome
      (fun Fa dl _ => applyDistLoad_isSome ops input hm ha hb Fa _ _ _ _ _) F

theorem assembleStiffness_isSome (ops : RealOps) (input : FemInput)
    (h : endpointsExist input) : (assembleStiffness ops input).isSome :=
  foldlM_option_isSome
    (fun K m hmem => assembleStep_isSome ops input hmem (h m hmem).1 (h m hmem).2 K) zeroMat

theorem assembleLoads_isSome (ops : RealOps) (input : FemInput)
    (h : endpointsExist input) : (assembleLoads ops input).isSome :=
  foldlM_option_isSome (fun F grp _ => distGroupStep_isSome ops input h F grp) _

theorem buildSystem_isSome (ops : RealOps) (input : FemInput)
    (h : endpointsExist input) : (buildSystem ops input).isSome := by
  rw [buildSystem]
  obtain ⟨K, hK⟩ := Option.isSome_iff_exists.mp (assembleStiffness_isSome ops input h)
  obtain ⟨F, hF⟩ := Option.isSome_iff_exists.mp (assembleLoads_isSome ops input h)
  simp only [hK, hF, someBind]
  rfl

theorem elementsStep_isSome (ops : RealOps) (input : FemInput) (u : List ℚ) {m : Member}
    (ha : m.a ∈ input.nodes.map (·.id))
    (hb : m.b ∈ input.nodes.map (·.id)) (acc : List ElementResult) :
    (elementsStep ops input u acc m).isSome := by
  obtain ⟨nA, hnA⟩ := Option.isSome_iff_exists.mp ((nodeMapOf_isSome_iff input m.a).mpr ha)
  obtain ⟨nB, hnB⟩ := Option.isSome_iff_exists.mp ((nodeMapOf_isSome_iff input m.b).mpr hb)
  rw [elementsStep]
  simp only [hnA, hnB, someBind]
  split <;> rfl

/-- When every endpoint exists, post-processing always returns a success
value. -/
theorem postProcess_shape (ops : RealOps) (input : FemInput) (K : GlobalMat)
    (F : GlobalVec) (u : List ℚ) (h : endpointsExist input) :
    ∃ els, postProcess ops input K F u =
      some (.ok els (reactionsOf input K F u) (displacementsOf input u)) := by
  obtain ⟨els, hels⟩ := Option.isSome_iff_exists.mp
    (foldlM_option_isSome
      (fun acc m hmem => elementsStep_isSome ops input u (h m hmem).1 (h m hmem).2 acc)
      ([] : List ElementResult))
  refine ⟨els, ?_⟩
  rw [postProcess, hels]
  rfl

/-- `postProcess` never produces a failure value. -/
theorem postProcess_not_failure (ops : RealOps) (input : FemInput) (K : GlobalMat)
    (F : GlobalVec) (u : List ℚ) (reason : FailReason) (msg : String) :
    postProcess ops input K F u ≠ some (.failure reason msg) := by
  rw [postProcess]
  cases hels : input.members.foldlM (elementsStep ops input u) [] with
  | none => simp
  | some els => simp

/-- A successful assembly step presupposes that both endpoint lookups hit. -/
theorem assembleStep_isSome_endpoints (ops : RealOps) (input : FemInput) (K : GlobalMat)
    (m : Member)
    (h : (assembleStep ops (nodeMapOf input) (dofMapOf input) (jointNodeIdsOf input) K m).isSome) :
    m.a ∈ input.nodes.map (·.id) ∧ m.b ∈ input.nodes.map (·.id) := by
  rw [assembleStep] at h
  cases hnA : jsGet (nodeMapOf input) m.a with
  | none => rw [hnA, noneBind] at h; simp at h
  | some nA =>
    cases hnB : jsGet (nodeMapOf input) m.b with
    | none => rw [hnA, someBind, hnB, noneBind] at h; simp at h
    | some nB =>
      exact ⟨(nodeMapOf_isSome_iff input m.a).mp (by simp [hnA]),
             (nodeMapOf_isSome_iff input m.b).mp (by simp [hnB])⟩

/-- A successful stiffness assembly certifies that every member endpoint
names an existing node. -/
theorem assembleStiffness_endpoints (ops : RealOps) (input : FemInput)
    (h : (assembleStiffness ops input).isSome) : endpointsExist input := by
  intro m hm
  obtain ⟨K, hK⟩ := foldlM_option_isSome_of_mem zeroMat h m hm
  exact assembleStep_isSome_endpoints ops input K m hK

theorem buildSystem_endpoints (ops : RealOps) (input : FemInput)
    (h : (buildSystem ops input).isSome) : endpointsExist input := by
  rw [buildSystem] at h
  cases hK : assembleStiffness ops input with
  | none => rw [hK, noneBind] at h; simp at h
  | some K => exact assembleStiffness_endpoints ops input (by simp [hK])

-- ===== Lemmas: the validator's result =====

theorem validateModel_issues_eq (input : FemInput) (hm : ¬(input.members.length = 0)) :
    (validateModel input).issues =
      isolatedNodesIssues input.nodes (usedNodeIdsOf input.members) ++
      connectivityIssues input.members (usedNodeIdsOf input.members) ++
      supportsIssues input.supports (usedNodeIdsOf input.members) ++
      loadWarnings input.pointLoads input.distLoads ++
      zeroLoadWarnings input.pointLoads input.distLoads ++
      dupNodeWarnings input.nodes ++
      zeroLengthIssues input.nodes input.members := by
  rw [validateModel, if_neg hm]

theorem validateModel_ok_eq (input : FemInput) :
    (validateModel input).ok =
      (((validateModel input).issues.filter fun i =>
        decide (i.level = ValidationLevel.error)).length == 0) := by
  rw [validateModel]
  by_cases hm : input.members.length = 0
  · rw [if_pos hm]
    simp [noMembersIssue]
  · rw [if_neg hm]

theorem ok_characterization (issues : List ValidationIssue) :
    (((issues.filter fun i => decide (i.level = ValidationLevel.error)).length == 0) = true) ↔
      ∀ i ∈ issues, i.level ≠ ValidationLevel.error := by
  rw [beq_iff_eq, List.length_eq_zero, List.filter_eq_nil_iff]
  simp

theorem validateModel_ok_iff (input : FemInput) :
    (validateModel input).ok = true ↔
      ∀ i ∈ (validateModel input).issues, i.level ≠ ValidationLevel.error := by
  rw [validateModel_ok_eq]
  exact ok_characterization _

theorem ok_false_of_error_mem (input : FemInput) {i : ValidationIssue}
    (hmem : i ∈ (validateModel input).issues) (herr : i.level = ValidationLevel.error) :
    (validateModel input).ok = false := by
  cases hok : (validateModel input).ok with
  | false => rfl
  | true => exact absurd herr ((validateModel_ok_iff input).mp hok i hmem)

theorem insufficient_mem_supportsIssues (supports : List Support) (used : List String)
    (hs : supports ≠ []) (hc : constraintCount supports < 3) :
    insufficientConstraintsIssue ∈ supportsIssues supports used := by
  rw [supportsIssues, if_neg (by simpa [List.length_eq_zero] using hs)]
  refine List.mem_append_right _ ?_
  rw [if_pos hc]
  exact List.mem_singleton_self _

theorem noSupports_mem_supportsIssues (used : List String) :
    noSupportsIssue ∈ supportsIssues [] used := by
  rw [supportsIssues]
  simp

-- ===== Lemmas: solveFem branch structure =====

theorem solveFem_validation_fail (ops : RealOps) (input : FemInput)
    (h : (validateModel input).ok = false) :
    solveFem ops input = some (.failure .validation
      (String.intercalate "\n"
        (((validateModel input).issues.filter fun i =>
          decide (i.level = ValidationLevel.error)).map (·.message)))) := by
  rw [solveFem]
  simp [h]

theorem solveFem_buildSystem_none (ops : RealOps) (input : FemInput)
    (h : (validateModel input).ok = true) (hbs : buildSystem ops input = none) :
    solveFem ops input = none := by
  rw [solveFem]
  simp only [h, if_true, hbs]

theorem solveFem_core_eq (ops : RealOps) (input : FemInput)
    (h : (validateModel input).ok = true) {KF : GlobalMat × GlobalVec}
    (hbs : buildSystem ops input = some KF) :
    solveFem ops input =
      match lsolve (dofMapOf input).totalDof KF.1 KF.2 with
      | none => some (.failure .singular singularMessage)
      | some dispArray =>
        if maxAbs dispArray > 1e10 then some (.failure .unstable unstableMessage)
        else postProcess ops input KF.1 KF.2 dispArray := by
  rw [solveFem]
  simp only [h, if_true, hbs]

theorem solveFem_not_validation_of_ok (ops : RealOps) (input : FemInput)
    (h : (validateModel input).ok = true) (msg : String) :
    solveFem ops input ≠ some (.failure .validation msg) := by
  cases hbs : buildSystem ops input with
  | none => rw [solveFem_buildSystem_none ops input h hbs]; simp
  | some KF =>
    rw [solveFem_core_eq ops input h hbs]
    cases hls : lsolve (dofMapOf input).totalDof KF.1 KF.2 with
    | none => simp
    | some u =>
      by_cases hmax : maxAbs u > 1e10
      · simp [hmax]
      · simp only [if_neg hmax]
        exact postProcess_not_failure ops input KF.1 KF.2 u .validation msg

-- ===== Claim C1 =====

/-- C1, counterexample: `solveFem` is not total.  `ghostMemberModel` passes
validation, yet the member whose endpoint "ghost" matches no node makes the
assembly loop's non-null node lookup throw outside the solver's only
`try`/`catch`, so the call ends in an escaping exception (`none`) instead of
any `FemResult` — and in particular not in a singular-style failure. -/
theorem solver_totality_counterexample :
    (validateModel ghostMemberModel).ok = true ∧
      solveFem exactOps ghostMemberModel = none := by
  constructor
  · with_unfolding_all rfl
  · with_unfolding_all rfl

/-- C1, amended: the solver's public contract is total for every model whose
members all reference existing nodes for both endpoints; under that
well-formedness premise every run returns a `FemResult` value — the
exception of the linear-solve step alone is caught and converted into the
`singular` failure, while the validation/singular/unstable taxonomy covers
all other exits.  (Without the premise, an internal invariant violation such
as a member endpoint matching no node id escapes as an unhandled fault.) -/
theorem solver_total_on_wellformed_models (ops : RealOps) (input : FemInput)
    (h : endpointsExist input) : (solveFem ops input).isSome := by
  cases hok : (validateModel input).ok with
  | false =>
    rw [solveFem]
    simp [hok]
  | true =>
    obtain ⟨KF, hKF⟩ := Option.isSome_iff_exists.mp (buildSystem_isSome ops input h)
    rw [solveFem_core_eq ops input hok hKF]
    cases hls : lsolve (dofMapOf input).totalDof KF.1 KF.2 with
    | none => rfl
    | some u =>
      by_cases hmax : maxAbs u > 1e10
      · simp [hmax]
      · obtain ⟨els, hels⟩ := postProcess_shape ops input KF.1 KF.2 u h
        simp [hmax, hels]

/-- C1 witness: the amended totality at the concrete cantilever model. -/
theorem solver_total_on_wellformed_models_witness :
    endpointsExist cantilever ∧ (solveFem exactOps cantilever).isSome :=
  ⟨by with_unfolding_all decide,
   solver_total_on_wellformed_models exactOps cantilever (by with_unfolding_all decide)⟩

-- ===== Claim C2 =====

/-- C2: `validateModel` returns `ok = true` iff no collected issue has level
error; whenever it returns `ok = false`, `solveFem` returns the
validation failure whose message is the newline-join of exactly the
error-level issue messages; and whenever it returns `ok = true` (warnings at
most), no validation failure is ever produced — warnings never block
solving. -/
theorem validation_gating (ops : RealOps) (input : FemInput) :
    ((validateModel input).ok = true ↔
      ∀ i ∈ (validateModel input).issues, i.level ≠ ValidationLevel.error) ∧
    ((validateModel input).ok = false →
      solveFem ops input = some (.failure .validation
        (String.intercalate "\n"
          (((validateModel input).issues.filter fun i =>
            decide (i.level = ValidationLevel.error)).map (·.message))))) ∧
    ((validateModel input).ok = true →
      ∀ msg, solveFem ops input ≠ some (.failure .validation msg)) :=
  ⟨validateModel_ok_iff input,
   solveFem_validation_fail ops input,
   fun h msg => solveFem_not_validation_of_ok ops input h msg⟩

/-- C2 witness: the empty model fails validation and the solver returns the
aggregated validation failure for it. -/
theorem validation_gating_witness :
    (validateModel emptyModel).ok = false ∧
      solveFem exactOps emptyModel = some (.failure .validation
        (String.intercalate "\n"
          (((validateModel emptyModel).issues.filter fun i =>
            decide (i.level = ValidationLevel.error)).map (·.message)))) :=
  ⟨by with_unfolding_all rfl,
   (validation_gating exactOps emptyModel).2.1 (by with_unfolding_all rfl)⟩

-- ===== Claim C3 =====

/-- C3, counterexample: a model with one member and zero supports has a
constraint count of 0 < 3 and fails validation, but *without* any
INSUFFICIENT_CONSTRAINTS issue — the constraint-count check lives in the
`else` branch of the no-supports check, so the zero-support combination
reports NO_SUPPORTS only. -/
theorem insufficient_constraints_counterexample :
    noSupportModel.members ≠ [] ∧
    constraintCount noSupportModel.supports < 3 ∧
    (validateModel noSupportModel).ok = false ∧
    ∀ i ∈ (validateModel noSupportModel).issues, i.code ≠ "INSUFFICIENT_CONSTRAINTS" := by
  refine ⟨by with_unfolding_all decide, by with_unfolding_all decide,
    by with_unfolding_all rfl, by with_unfolding_all decide⟩

/-- C3, amended: for every model with at least one member and constraint
count (pin=2, roller=1, fix=3) strictly below 3, validation fails; the
failure carries an INSUFFICIENT_CONSTRAINTS issue for every combination
with at least one support, while the zero-support combination carries a
NO_SUPPORTS issue instead. -/
theorem insufficient_constraints_flagged (input : FemInput)
    (hm : input.members ≠ []) (hc : constraintCount input.supports < 3) :
    (validateModel input).ok = false ∧
    (input.supports ≠ [] →
      ∃ i ∈ (validateModel input).issues, i.code = "INSUFFICIENT_CONSTRAINTS") ∧
    (input.supports = [] →
      ∃ i ∈ (validateModel input).issues, i.code = "NO_SUPPORTS") := by
  have hm0 : ¬(input.members.length = 0) := by simpa [List.length_eq_zero] using hm
  have hissues := validateModel_issues_eq input hm0
  by_cases hs : input.supports = []
  · have hmem : noSupportsIssue ∈ (validateModel input).issues := by
      rw [hissues]
      refine List.mem_append_left _ (List.mem_append_left _ (List.mem_append_left _
        (List.mem_append_left _ (List.mem_append_right _ ?_))))
      rw [hs]
      exact noSupports_mem_supportsIssues _
    refine ⟨ok_false_of_error_mem input hmem rfl, fun hns => absurd hs hns, fun _ => ?_⟩
    exact ⟨_, hmem, rfl⟩
  · have hmem : insufficientConstraintsIssue ∈ (validateModel input).issues := by
      rw [hissues]
      refine List.mem_append_left _ (List.mem_append_left _ (List.mem_append_left _
        (List.mem_append_left _ (List.mem_append_right _ ?_))))
      exact insufficient_mem_supportsIssues input.supports _ hs hc
    refine ⟨ok_false_of_error_mem input hmem rfl, fun _ => ⟨_, hmem, rfl⟩,
      fun h0 => absurd h0 hs⟩

/-- C3 witness: a single-roller model (constraint count 1) is flagged with
INSUFFICIENT_CONSTRAINTS and fails validation. -/
theorem insufficient_constraints_flagged_witness :
    oneRollerModel.members ≠ [] ∧ constraintCount oneRollerModel.supports < 3 ∧
    (validateModel oneRollerModel).ok = false ∧
    ∃ i ∈ (validateModel oneRollerModel).issues, i.code = "INSUFFICIENT_CONSTRAINTS" := by
  refine ⟨by with_unfolding_all decide, by with_unfolding_all decide, ?_, ?_⟩
  · exact (insufficient_constraints_flagged oneRollerModel (by with_unfolding_all decide)
      (by with_unfolding_all decide)).1
  · exact (insufficient_constraints_flagged oneRollerModel (by with_unfolding_all decide)
      (by with_unfolding_all decide)).2.1 (by with_unfolding_all decide)

-- ===== Claim C4 =====

/-- C4: a model with no members validates to `ok = false` with exactly the
single error-level NO_MEMBERS issue; every other check is short-circuited. -/
theorem no_members_short_circuit (input : FemInput) (h : input.members = []) :
    validateModel input = { ok := false, issues := [noMembersIssue] } := by
  rw [validateModel, if_pos (by simp [h])]

/-- C4 witness: the empty model. -/
theorem no_members_short_circuit_witness :
    emptyModel.members = [] ∧
      validateModel emptyModel = { ok := false, issues := [noMembersIssue] } :=
  ⟨rfl, no_members_short_circuit emptyModel rfl⟩

-- ===== Claim C5 =====

/-- C5: moment loads have no effect whatsoever — two inputs identical except
for their `momentLoads` list produce identical validation results and
identical solver results, for every interpretation of the float primitives.
Neither `validateModel` nor `solveFem` ever reads the `momentLoads` field. -/
theorem momentLoads_noninterference (ops : RealOps) (input : FemInput)
    (ml : List MomentLoad) :
    validateModel { input with momentLoads := ml } = validateModel input ∧
      solveFem ops { input with momentLoads := ml } = solveFem ops input :=
  ⟨rfl, rfl⟩

-- ===== Claim C6 =====

theorem dispOf_inv (ops : RealOps) (input : FemInput) {u : List ℚ}
    (h : dispOf ops input = some u) :
    ∃ KF, buildSystem ops input = some KF ∧
      lsolve (dofMapOf input).totalDof KF.1 KF.2 = some u := by
  rw [dispOf] at h
  cases hbs : buildSystem ops input with
  | none => rw [hbs, noneBind] at h; exact absurd h (by simp)
  | some KF =>
    rw [hbs, someBind] at h
    exact ⟨KF, rfl, h⟩

/-- C6: when the linear solve succeeds with displacement vector `u` (on a
model that passed validation), `solveFem` returns the typed `unstable`
failure exactly when the largest-magnitude entry of `u` exceeds the sanity
threshold 10¹⁰; when it is at most 10¹⁰, post-processing proceeds and a
success value is returned.  (Non-finite entries cannot arise in this
exact-rational embedding, so the non-finiteness disjunct of the source's
`!isFinite(maxDisp) || maxDisp > 1e10` test is vacuous here.) -/
theorem unstable_detection (ops : RealOps) (input : FemInput)
    (hok : (validateModel input).ok = true) (hsome : (dispOf ops input).isSome) :
    (maxAbs (uOf ops input) > 1e10 →
      solveFem ops input = some (.failure .unstable unstableMessage)) ∧
    (maxAbs (uOf ops input) ≤ 1e10 →
      ∃ e r d, solveFem ops input = some (.ok e r d)) := by
  obtain ⟨u, hu⟩ := Option.isSome_iff_exists.mp hsome
  obtain ⟨KF, hbs, hls⟩ := dispOf_inv ops input hu
  have huOf : uOf ops input = u := by rw [uOf, hu]; rfl
  rw [huOf]
  rw [solveFem_core_eq ops input hok hbs, hls]
  constructor
  · intro hgt
    simp [hgt]
  · intro hle
    have hngt : ¬ maxAbs u > 1e10 := not_lt.mpr hle
    have hep : endpointsExist input :=
      buildSystem_endpoints ops input (by simp [hbs])
    obtain ⟨els, hels⟩ := postProcess_shape ops input KF.1 KF.2 u hep
    refine ⟨els, reactionsOf input KF.1 KF.2 u, displacementsOf input u, ?_⟩
    simp [hngt, hels]

/-- C6 witness: the huge-load cantilever trips the 10¹⁰ threshold and is
reported unstable; the moderate-load cantilever stays below it and
succeeds. -/
theorem unstable_detection_witness :
    (maxAbs (uOf exactOps cantileverHuge) > 1e10 ∧
      solveFem exactOps cantileverHuge = some (.failure .unstable unstableMessage)) ∧
    (maxAbs (uOf exactOps cantilever) ≤ 1e10 ∧
      ∃ e r d, solveFem exactOps cantilever = some (.ok e r d)) :=
  ⟨⟨by with_unfolding_all decide,
    (unstable_detection exactOps cantileverHuge (by with_unfolding_all rfl)
      (by with_unfolding_all rfl)).1 (by with_unfolding_all decide)⟩,
   ⟨by with_unfolding_all decide,
    (unstable_detection exactOps cantilever (by with_unfolding_all rfl)
      (by with_unfolding_all rfl)).2 (by with_unfolding_all decide)⟩⟩

-- ===== Claim C7 =====

theorem reactionsOf_eq_filterMap (input : FemInput) (K : GlobalMat) (F : GlobalVec)
    (u : List ℚ) :
    reactionsOf input K F u =
      input.supports.filterMap fun sup =>
        (jsGet (dofMapOf input).nodeDof sup.nodeId).map (reactionEntry input K F u sup) := by
  rw [reactionsOf]
  suffices h : ∀ (l : List Support) (acc : List ReactionResult),
      l.foldl
        (fun acc sup =>
          match jsGet (dofMapOf input).nodeDof sup.nodeId with
          | none => acc
          | some dofs => acc ++ [reactionEntry input K F u sup dofs])
        acc =
        acc ++ l.filterMap fun sup =>
          (jsGet (dofMapOf input).nodeDof sup.nodeId).map (reactionEntry input K F u sup) by
    simpa using h input.supports []
  intro l
  induction l with
  | nil => intro acc; simp
  | cons sup rest ih =>
    intro acc
    rw [List.foldl_cons, List.filterMap_cons]
    cases hj : jsGet (dofMapOf input).nodeDof sup.nodeId with
    | none => simp only [hj, Option.map_none']; exact ih acc
    | some dofs => simp [hj, ih]

/-- C7: in every success result, each reaction entry is the residual
`(K·u − F)` at the support node's `ux`/`uy` DOFs, with `K` and `F` the
post-boundary-condition system and `u` the solved displacement vector; the
moment component is the residual at the rotation DOF exactly for fix
supports at nodes with a real (non-sentinel) rotation DOF and 0 otherwise;
supports whose node has no DOF entry contribute no reaction record. -/
theorem reactions_are_residuals (ops : RealOps) (input : FemInput)
    (h : resultIsOk (solveFem ops input) = true) :
    reactionsOfResult (solveFem ops input) =
      input.supports.filterMap fun sup =>
        (jsGet (dofMapOf input).nodeDof sup.nodeId).map fun dofs =>
          ({ supportId := sup.id, nodeId := sup.nodeId,
             fx := residualAt (dofMapOf input).totalDof (KOf ops input) (FOf ops input)
                     (uOf ops input) dofs.1,
             fy := residualAt (dofMapOf input).totalDof (KOf ops input) (FOf ops input)
                     (uOf ops input) dofs.2.1,
             m := if sup.type = .fix ∧ dofs.2.2 ≠ -1 then
                    residualAt (dofMapOf input).totalDof (KOf ops input) (FOf ops input)
                      (uOf ops input) dofs.2.2
                  else 0 } : ReactionResult) := by
  cases hok : (validateModel input).ok with
  | false =>
    rw [solveFem_validation_fail ops input hok] at h
    simp [resultIsOk] at h
  | true =>
    cases hbs : buildSystem ops input with
    | none =>
      rw [solveFem_buildSystem_none ops input hok hbs] at h
      simp [resultIsOk] at h
    | some KF =>
      have hcore := solveFem_core_eq ops input hok hbs
      cases hls : lsolve (dofMapOf input).totalDof KF.1 KF.2 with
      | none =>
        rw [hcore, hls] at h
        simp [resultIsOk] at h
      | some u =>
        by_cases hmax : maxAbs u > 1e10
        · rw [hcore, hls] at h
          simp [resultIsOk, hmax] at h
        · have hep : endpointsExist input :=
            buildSystem_endpoints ops input (by simp [hbs])
          obtain ⟨els, hels⟩ := postProcess_shape ops input KF.1 KF.2 u hep
          have hsolve : solveFem ops input =
              some (.ok els (reactionsOf input KF.1 KF.2 u) (displacementsOf input u)) := by
            rw [hcore, hls]
            simp [hmax, hels]
          rw [hsolve]
          have hK : KOf ops input = KF.1 := by rw [KOf, hbs]
          have hF : FOf ops input = KF.2 := by rw [FOf, hbs]
          have hu : uOf ops input = u := by
            rw [uOf, dispOf, hbs, someBind, hls]
            rfl
          show reactionsOf input KF.1 KF.2 u = _
          rw [hK, hF, hu, reactionsOf_eq_filterMap]
          rfl

/-- C7 witness: the reaction formula instantiated at the concrete
cantilever run. -/
theorem reactions_are_residuals_witness :
    resultIsOk (solveFem exactOps cantilever) = true ∧
      reactionsOfResult (solveFem exactOps cantilever) =
        cantilever.supports.filterMap fun sup =>
          (jsGet (dofMapOf cantilever).nodeDof sup.nodeId).map fun dofs =>
            ({ supportId := sup.id, nodeId := sup.nodeId,
               fx := residualAt (dofMapOf cantilever).totalDof (KOf exactOps cantilever)
                       (FOf exactOps cantilever) (uOf exactOps cantilever) dofs.1,
               fy := residualAt (dofMapOf cantilever).totalDof (KOf exactOps cantilever)
                       (FOf exactOps cantilever) (uOf exactOps cantilever) dofs.2.1,
               m := if sup.type = .fix ∧ dofs.2.2 ≠ -1 then
                      residualAt (dofMapOf cantilever).totalDof (KOf exactOps cantilever)
                        (FOf exactOps cantilever) (uOf exactOps cantilever) dofs.2.2
                    else 0 } : ReactionResult) :=
  ⟨by with_unfolding_all rfl,
   reactions_are_residuals exactOps cantilever (by with_unfolding_all rfl)⟩

-- ===== Claim C8 =====

theorem fixedEnd_fold_qu (ops : RealOps) (c s L : ℚ) (dls : List DistLoad) :
    ∀ init : FixedEndAcc,
      (dls.foldl (fixedEndStep ops c s L) init).qu = init.qu + qAxialSum ops c s dls := by
  induction dls with
  | nil => intro init; simp [qAxialSum]
  | cons dl rest ih =>
    intro init
    rw [List.foldl_cons, ih]
    simp [fixedEndStep, qAxialSum, add_assoc]

theorem fixedEnd_fold_qv (ops : RealOps) (c s L : ℚ) (dls : List DistLoad) :
    ∀ init : FixedEndAcc,
      (dls.foldl (fixedEndStep ops c s L) init).qv = init.qv + qTransSum ops c s dls := by
  induction dls with
  | nil => intro init; simp [qTransSum]
  | cons dl rest ih =>
    intro init
    rw [List.foldl_cons, ih]
    simp [fixedEndStep, qTransSum, add_assoc]

/-- C8: every element result carries exactly 11 sample points; point `i`
sits at `t = i/10` (position `x = (i/10)·L`) and its values are
`N(x) = Na − q_axial·x`, `Q(x) = Qa − q_transverse·x`,
`M(x) = Ma + Qa·x − q_transverse·x²/2`, with `q_axial`/`q_transverse` the
summed local axial/transverse intensities of the member's distributed loads
and `Na`, `Qa`, `Ma` the reported a-end forces. -/
theorem section_force_sampling (ops : RealOps) (memberId nodeIdA nodeIdB : String)
    (c s L EA EI : ℚ) (disp : List ℚ) (dofMap : DofMap) (jointNodeIds : List String)
    (dls : List DistLoad) :
    (calcElementForces ops memberId nodeIdA nodeIdB c s L EA EI disp dofMap jointNodeIds
      dls).points.length = 11 ∧
    (calcElementForces ops memberId nodeIdA nodeIdB c s L EA EI disp dofMap jointNodeIds
      dls).points =
      (List.range 11).map fun (i : ℕ) =>
        { t := (i : ℚ) / 10,
          N := (calcElementForces ops memberId nodeIdA nodeIdB c s L EA EI disp dofMap
                  jointNodeIds dls).Na - qAxialSum ops c s dls * ((i : ℚ) / 10 * L),
          Q := (calcElementForces ops memberId nodeIdA nodeIdB c s L EA EI disp dofMap
                  jointNodeIds dls).Qa - qTransSum ops c s dls * ((i : ℚ) / 10 * L),
          M := (calcElementForces ops memberId nodeIdA nodeIdB c s L EA EI disp dofMap
                  jointNodeIds dls).Ma +
               (calcElementForces ops memberId nodeIdA nodeIdB c s L EA EI disp dofMap
                  jointNodeIds dls).Qa * ((i : ℚ) / 10 * L) -
               qTransSum ops c s dls * ((i : ℚ) / 10 * L) * ((i : ℚ) / 10 * L) / 2 } := by
  constructor
  · rfl
  · simp only [calcElementForces, SAMPLES]
    congr 1
    funext i
    have hqu := fixedEnd_fold_qu ops c s L dls
      { qu := 0, qv := 0, f0 := 0, f1 := 0, f2 := 0, f3 := 0, f4 := 0, f5 := 0 }
    have hqv := fixedEnd_fold_qv ops c s L dls
      { qu := 0, qv := 0, f0 := 0, f1 := 0, f2 := 0, f3 := 0, f4 := 0, f5 := 0 }
    simp only [zero_add] at hqu hqv
    rw [hqu, hqv]
    have hcast : ((11 : ℕ) : ℚ) - 1 = 10 := by norm_num
    rw [hcast]

-- ===== Claim C9 =====

theorem mat6_localStiffness_symm (L EA EI : ℚ) (i j : ℕ) :
    mat6 (localStiffness L EA EI) i j = mat6 (localStiffness L EA EI) j i := by
  rcases i with _ | _ | _ | _ | _ | _ | i <;> rcases j with _ | _ | _ | _ | _ | _ | j <;>
    simp [localStiffness, mat6]

theorem tKlT_symm (kl T : List (List ℚ))
    (hsym : ∀ i j, mat6 kl i j = mat6 kl j i) (i j : ℕ) :
    tKlT kl T i j = tKlT kl T j i := by
  simp only [tKlT, klT, Finset.mul_sum]
  rw [Finset.sum_comm]
  refine Finset.sum_congr rfl fun k _ => Finset.sum_congr rfl fun l _ => ?_
  rw [hsym k l]
  ring

theorem assembleMember_symm (K : GlobalMat) (kl T : List (List ℚ)) (dofs : List Int)
    (hK : ∀ p q, K p q = K q p) (hkl : ∀ i j, mat6 kl i j = mat6 kl j i) (p q : Int) :
    assembleMember K kl T dofs p q = assembleMember K kl T dofs q p := by
  rw [assembleMember, assembleMember, hK p q]
  congr 1
  rw [Finset.sum_comm]
  refine Finset.sum_congr rfl fun i _ => Finset.sum_congr rfl fun j _ => ?_
  by_cases h : dofs.getD i 0 = q ∧ dofs.getD j 0 = p
  · rw [if_pos ⟨h.2, h.1⟩, if_pos h, tKlT_symm kl T hkl j i]
  · rw [if_neg fun hh => h ⟨hh.2, hh.1⟩, if_neg h]

theorem addMat_diag_symm (K : GlobalMat) (i : Int) (v : ℚ)
    (hK : ∀ p q, K p q = K q p) (p q : Int) :
    addMat K i i v p q = addMat K i i v q p := by
  rw [addMat, addMat]
  by_cases h : p = i ∧ q = i
  · rw [if_pos h, if_pos ⟨h.2, h.1⟩, hK p q]
  · rw [if_neg h, if_neg fun h2 => h ⟨h2.2, h2.1⟩, hK p q]

theorem addMat_cross_symm (K : GlobalMat) (a b : Int) (v w : ℚ) (hvw : v = w)
    (hK : ∀ p q, K p q = K q p) (p q : Int) :
    addMat (addMat K a b v) b a w p q = addMat (addMat K a b v) b a w q p := by
  simp only [addMat]
  have c1 : (q = b ∧ p = a) ↔ (p = a ∧ q = b) := and_comm
  have c2 : (q = a ∧ p = b) ↔ (p = b ∧ q = a) := and_comm
  by_cases h1 : p = a ∧ q = b <;> by_cases h2 : p = b ∧ q = a
  · rw [if_pos h2, if_pos h1, if_pos (c1.mpr h1), if_pos (c2.mpr h2), hK p q, hvw]
  · rw [if_neg h2, if_pos h1, if_pos (c1.mpr h1), if_neg fun hh => h2 (c2.mp hh),
      hK p q, hvw]
  · rw [if_pos h2, if_neg h1, if_neg fun hh => h1 (c1.mp hh), if_pos (c2.mpr h2),
      hK p q, hvw]
  · rw [if_neg h2, if_neg h1, if_neg fun hh => h1 (c1.mp hh),
      if_neg fun hh => h2 (c2.mp hh), hK p q]

theorem foldl_preserves {α β : Type} (P : β → Prop) (f : β → α → β) (l : List α)
    (hstep : ∀ acc x, P acc → P (f acc x)) :
    ∀ init, P init → P (l.foldl f init) := by
  induction l with
  | nil => intro init h; simpa using h
  | cons x xs ih =>
    intro init h
    rw [List.foldl_cons]
    exact ih (f init x) (hstep init x h)

theorem bcStep_symm (ops : RealOps) (dofMap : DofMap) (members : List Member)
    (jointNodeIds : List String) (K : GlobalMat) (sup : Support)
    (hK : ∀ p q, K p q = K q p) :
    ∀ p q, bcStep ops dofMap members jointNodeIds K sup p q =
      bcStep ops dofMap members jointNodeIds K sup q p := by
  rw [bcStep]
  cases jsGet dofMap.nodeDof sup.nodeId with
  | none => exact hK
  | some dofs =>
    cases sup.type with
    | pin => exact addMat_diag_symm _ _ _ (addMat_diag_symm _ _ _ hK)
    | roller =>
      exact addMat_diag_symm _ _ _
        (addMat_cross_symm _ _ _ _ _ (by ring) (addMat_diag_symm _ _ _ hK))
    | fix =>
      show ∀ p q,
        (if sup.nodeId ∈ jointNodeIds then
          members.foldl
            (fun Ka m =>
              [m.a, m.b].foldl
                (fun Kb nid =>
                  if nid = sup.nodeId then
                    match jsGet dofMap.hingeDof (m.id, nid) with
                    | some hd => addMat Kb hd hd PENALTY
                    | none => Kb
                  else Kb)
                Ka)
            (if dofs.2.2 ≠ -1 then
              addMat (addMat (addMat K dofs.1 dofs.1 PENALTY) dofs.2.1 dofs.2.1 PENALTY)
                dofs.2.2 dofs.2.2 PENALTY
             else addMat (addMat K dofs.1 dofs.1 PENALTY) dofs.2.1 dofs.2.1 PENALTY)
        else
          (if dofs.2.2 ≠ -1 then
            addMat (addMat (addMat K dofs.1 dofs.1 PENALTY) dofs.2.1 dofs.2.1 PENALTY)
              dofs.2.2 dofs.2.2 PENALTY
           else addMat (addMat K dofs.1 dofs.1 PENALTY) dofs.2.1 dofs.2.1 PENALTY)) p q =
        (if sup.nodeId ∈ jointNodeIds then
          members.foldl
            (fun Ka m =>
              [m.a, m.b].foldl
                (fun Kb nid =>
                  if nid = sup.nodeId then
                    match jsGet dofMap.hingeDof (m.id, nid) with
                    | some hd => addMat Kb hd hd PENALTY
                    | none => Kb
                  else Kb)
                Ka)
            (if dofs.2.2 ≠ -1 then
              addMat (addMat (addMat K dofs.1 dofs.1 PENALTY) dofs.2.1 dofs.2.1 PENALTY)
                dofs.2.2 dofs.2.2 PENALTY
             else addMat (addMat K dofs.1 dofs.1 PENALTY) dofs.2.1 dofs.2.1 PENALTY)
        else
          (if dofs.2.2 ≠ -1 then
            addMat (addMat (addMat K dofs.1 dofs.1 PENALTY) dofs.2.1 dofs.2.1 PENALTY)
              dofs.2.2 dofs.2.2 PENALTY
           else addMat (addMat K dofs.1 dofs.1 PENALTY) dofs.2.1 dofs.2.1 PENALTY)) q p
      have hbase : ∀ p q,
          (if dofs.2.2 ≠ -1 then
            addMat (addMat (addMat K dofs.1 dofs.1 PENALTY) dofs.2.1 dofs.2.1 PENALTY)
              dofs.2.2 dofs.2.2 PENALTY
           else addMat (addMat K dofs.1 dofs.1 PENALTY) dofs.2.1 dofs.2.1 PENALTY) p q =
          (if dofs.2.2 ≠ -1 then
            addMat (addMat (addMat K dofs.1 dofs.1 PENALTY) dofs.2.1 dofs.2.1 PENALTY)
              dofs.2.2 dofs.2.2 PENALTY
           else addMat (addMat K dofs.1 dofs.1 PENALTY) dofs.2.1 dofs.2.1 PENALTY) q p := by
        by_cases hrot : dofs.2.2 ≠ -1
        · simp only [if_pos hrot]
          exact addMat_diag_symm _ _ _ (addMat_diag_symm _ _ _ (addMat_diag_symm _ _ _ hK))
        · simp only [if_neg hrot]
          exact addMat_diag_symm _ _ _ (addMat_diag_symm _ _ _ hK)
      by_cases hjoint : sup.nodeId ∈ jointNodeIds
      · simp only [if_pos hjoint]
        refine foldl_preserves (fun K0 : GlobalMat => ∀ p q, K0 p q = K0 q p) _ members
          ?_ _ hbase
        intro acc m hacc
        refine foldl_preserves (fun K0 : GlobalMat => ∀ p q, K0 p q = K0 q p) _ [m.a, m.b]
          ?_ _ hacc
        intro acc2 nid hacc2
        by_cases hnid : nid = sup.nodeId
        · simp only [if_pos hnid]
          cases jsGet dofMap.hingeDof (m.id, nid) with
          | none => exact hacc2
          | some hd => exact addMat_diag_symm _ _ _ hacc2
        · simp only [if_neg hnid]
          exact hacc2
      · simp only [if_neg hjoint]
        exact hbase

theorem applyBoundaryConditions_symm (ops : RealOps) (K : GlobalMat)
    (supports : List Support) (dofMap : DofMap) (members : List Member)
    (jointNodeIds : List String) (hK : ∀ p q, K p q = K q p) :
    ∀ p q, applyBoundaryConditions ops K supports dofMap members jointNodeIds p q =
      applyBoundaryConditions ops K supports dofMap members jointNodeIds q p := by
  rw [applyBoundaryConditions]
  exact foldl_preserves (fun K0 => ∀ p q, K0 p q = K0 q p) _ supports
    (fun acc sup hacc => bcStep_symm ops dofMap members jointNodeIds acc sup hacc) K hK

theorem foldlM_option_preserves {α β : Type} (P : β → Prop) {f : β → α → Option β}
    {l : List α} (hstep : ∀ acc x b, P acc → f acc x = some b → P b) :
    ∀ init b, P init → l.foldlM f init = some b → P b := by
  induction l with
  | nil =>
    intro init b h hfold
    rw [List.foldlM_nil] at hfold
    cases hfold
    exact h
  | cons x xs ih =>
    intro init b h hfold
    rw [List.foldlM_cons] at hfold
    cases hfx : f init x with
    | none => rw [hfx, noneBind] at hfold; cases hfold
    | some acc2 =>
      rw [hfx, someBind] at hfold
      exact ih acc2 b (hstep init x acc2 h hfx) hfold

theorem assembleStep_symm (ops : RealOps) (nodeMap : List (String × Node2D))
    (dofMap : DofMap) (jointNodeIds : List String) (K : GlobalMat) (m : Member)
    (K2 : GlobalMat) (hK : ∀ p q, K p q = K q p)
    (hstep : assembleStep ops nodeMap dofMap jointNodeIds K m = some K2) :
    ∀ p q, K2 p q = K2 q p := by
  rw [assembleStep] at hstep
  cases hnA : jsGet nodeMap m.a with
  | none => rw [hnA, noneBind] at hstep; cases hstep
  | some nA =>
    rw [hnA, someBind] at hstep
    cases hnB : jsGet nodeMap m.b with
    | none => rw [hnB, noneBind] at hstep; cases hstep
    | some nB =>
      rw [hnB, someBind] at hstep
      replace hstep :
          (if (memberGeom ops nA.x nA.y nB.x nB.y).L < 1e-10 then pure K
           else do
             let tAIdx ← getRotDof m.id m.a dofMap jointNodeIds
             let tBIdx ← getRotDof m.id m.b dofMap jointNodeIds
             let dA ← jsGet dofMap.nodeDof m.a
             let dB ← jsGet dofMap.nodeDof m.b
             pure (assembleMember K
               (localStiffness (memberGeom ops nA.x nA.y nB.x nB.y).L DEFAULT_SECTION.EA
                 DEFAULT_SECTION.EI)
               (transformMatrix (memberGeom ops nA.x nA.y nB.x nB.y).c
                 (memberGeom ops nA.x nA.y nB.x nB.y).s)
               [dA.1, dA.2.1, tAIdx, dB.1, dB.2.1, tBIdx])) = some K2 := hstep
      split at hstep
      · cases hstep
        exact hK
      · cases htA : getRotDof m.id m.a dofMap jointNodeIds with
        | none => rw [htA, noneBind] at hstep; cases hstep
        | some tA =>
          rw [htA, someBind] at hstep
          cases htB : getRotDof m.id m.b dofMap jointNodeIds with
          | none => rw [htB, noneBind] at hstep; cases hstep
          | some tB =>
            rw [htB, someBind] at hstep
            cases hdA : jsGet dofMap.nodeDof m.a with
            | none => rw [hdA, noneBind] at hstep; cases hstep
            | some dA =>
              rw [hdA, someBind] at hstep
              cases hdB : jsGet dofMap.nodeDof m.b with
              | none => rw [hdB, noneBind] at hstep; cases hstep
              | some dB =>
                rw [hdB, someBind] at hstep
                cases hstep
                exact assembleMember_symm K _ _ _ hK
                  (mat6_localStiffness_symm _ DEFAULT_SECTION.EA DEFAULT_SECTION.EI)

theorem assembledKOf_symm (ops : RealOps) (input : FemInput) :
    ∀ p q, assembledKOf ops input p q = assembledKOf ops input q p := by
  rw [assembledKOf]
  cases hA : assembleStiffness ops input with
  | none => intro p q; rfl
  | some K =>
    rw [Option.getD_some]
    rw [assembleStiffness] at hA
    exact foldlM_option_preserves (fun K0 => ∀ p q, K0 p q = K0 q p)
      (fun acc m b hacc hsome =>
        assembleStep_symm ops (nodeMapOf input) (dofMapOf input) (jointNodeIdsOf input)
          acc m b hacc hsome)
      zeroMat K (fun _ _ => rfl) hA

/-- C9: the global stiffness matrix is symmetric both right after member
assembly (each contribution `Tᵀ·K_local·T` of the symmetric local 6×6
stiffness is symmetric) and after boundary-condition enforcement (each fix,
pin and roller penalty term — including the roller's paired off-diagonal
`penalty·nx·ny` entries — preserves symmetry), for every model and every
interpretation of the float primitives. -/
theorem global_stiffness_symmetric (ops : RealOps) (input : FemInput) (p q : Int) :
    assembledKOf ops input p q = assembledKOf ops input q p ∧
      constrainedKOf ops input p q = constrainedKOf ops input q p :=
  ⟨assembledKOf_symm ops input p q,
   applyBoundaryConditions_symm ops (assembledKOf ops input) input.supports
     (dofMapOf input) input.members (jointNodeIdsOf input)
     (assembledKOf_symm ops input) p q⟩

-- ===== Claim C10 =====

theorem loadWarnings_no_errors (pls : List PointLoad) (dls : List DistLoad) :
    (loadWarnings pls dls).filter (fun i => decide (i.level = ValidationLevel.error)) = [] := by
  rw [loadWarnings]
  split <;> simp

theorem zeroLoadWarnings_no_errors (pls : List PointLoad) (dls : List DistLoad) :
    (zeroLoadWarnings pls dls).filter
      (fun i => decide (i.level = ValidationLevel.error)) = [] := by
  rw [zeroLoadWarnings]
  split <;> simp

/-- The error-level issues of `validateModel` never depend on the point-load
list: every check that reads it produces warnings only. -/
theorem validate_pointLoads_errors (input : FemInput) (pls : List PointLoad) :
    ((validateModel { input with pointLoads := pls }).issues.filter
      (fun i => decide (i.level = ValidationLevel.error))) =
    ((validateModel input).issues.filter
      (fun i => decide (i.level = ValidationLevel.error))) := by
  by_cases hm : input.members.length = 0
  · rw [validateModel, validateModel]
    simp [hm]
  · have hm2 : ¬(({ input with pointLoads := pls } : FemInput).members.length = 0) := hm
    rw [validateModel_issues_eq input hm, validateModel_issues_eq _ hm2]
    simp only [List.filter_append, loadWarnings_no_errors, zeroLoadWarnings_no_errors]

theorem validate_pointLoads_ok (input : FemInput) (pls : List PointLoad) :
    (validateModel { input with pointLoads := pls }).ok = (validateModel input).ok := by
  rw [validateModel_ok_eq, validateModel_ok_eq, validate_pointLoads_errors]

theorem assembleLoads_ghost (ops : RealOps) (input : FemInput) (pl : PointLoad)
    (pls1 pls2 : List PointLoad) (hsplit : input.pointLoads = pls1 ++ pl :: pls2)
    (hghost : pl.nodeId ∉ input.nodes.map (·.id)) :
    assembleLoads ops { input with pointLoads := pls1 ++ pls2 } = assembleLoads ops input := by
  have hnone : jsGet (dofMapOf input).nodeDof pl.nodeId = none := by
    rw [← Option.not_isSome_iff_eq_none, nodeDof_isSome_iff]
    exact hghost
  show (groupDistLoads input.distLoads).foldlM
      (distGroupStep ops input.members (nodeMapOf input) (dofMapOf input)
        (jointNodeIdsOf input))
      ((pls1 ++ pls2).foldl
        (fun F p => applyPointLoad ops F (dofMapOf input) p.nodeId p.angleDeg p.magnitude)
        zeroVec) =
    (groupDistLoads input.distLoads).foldlM
      (distGroupStep ops input.members (nodeMapOf input) (dofMapOf input)
        (jointNodeIdsOf input))
      (input.pointLoads.foldl
        (fun F p => applyPointLoad ops F (dofMapOf input) p.nodeId p.angleDeg p.magnitude)
        zeroVec)
  congr 1
  rw [hsplit, List.foldl_append, List.foldl_append, List.foldl_cons]
  congr 1
  rw [applyPointLoad, hnone]

theorem buildSystem_ghost (ops : RealOps) (input : FemInput) (pl : PointLoad)
    (pls1 pls2 : List PointLoad) (hsplit : input.pointLoads = pls1 ++ pl :: pls2)
    (hghost : pl.nodeId ∉ input.nodes.map (·.id)) :
    buildSystem ops { input with pointLoads := pls1 ++ pls2 } = buildSystem ops input := by
  rw [buildSystem, buildSystem, assembleLoads_ghost ops input pl pls1 pls2 hsplit hghost]
  exact rfl

/-- C10: a point load aimed at a node id that matches no node is silently
ignored — the validator performs no existence check on point-load node ids
(its `ok` verdict is unchanged by the load), and `applyPointLoad`'s guard
drops the load from the load vector, so `solveFem` returns the same result
as for the model with the load removed; no error or failure is raised for
the dangling reference. -/
theorem ghost_pointLoad_ignored (ops : RealOps) (input : FemInput) (pl : PointLoad)
    (pls1 pls2 : List PointLoad) (hsplit : input.pointLoads = pls1 ++ pl :: pls2)
    (hghost : pl.nodeId ∉ input.nodes.map (·.id)) :
    (validateModel { input with pointLoads := pls1 ++ pls2 }).ok =
      (validateModel input).ok ∧
    solveFem ops { input with pointLoads := pls1 ++ pls2 } = solveFem ops input := by
  refine ⟨validate_pointLoads_ok input (pls1 ++ pls2), ?_⟩
  cases hok : (validateModel input).ok with
  | false =>
    have hok2 : (validateModel { input with pointLoads := pls1 ++ pls2 }).ok = false := by
      rw [validate_pointLoads_ok]
      exact hok
    rw [solveFem_validation_fail ops input hok,
        solveFem_validation_fail ops { input with pointLoads := pls1 ++ pls2 } hok2,
        validate_pointLoads_errors input (pls1 ++ pls2)]
  | true =>
    have hok2 : (validateModel { input with pointLoads := pls1 ++ pls2 }).ok = true := by
      rw [validate_pointLoads_ok]
      exact hok
    have hbs := buildSystem_ghost ops input pl pls1 pls2 hsplit hghost
    cases hbsi : buildSystem ops input with
    | none =>
      rw [solveFem_buildSystem_none ops input hok hbsi,
          solveFem_buildSystem_none ops { input with pointLoads := pls1 ++ pls2 } hok2
            (by rw [hbs]; exact hbsi)]
    | some KF =>
      rw [solveFem_core_eq ops input hok hbsi,
          solveFem_core_eq ops { input with pointLoads := pls1 ++ pls2 } hok2
            (by rw [hbs]; exact hbsi)]
      rfl

/-- C10 witness: the cantilever with a dangling point load appended still
validates ok, and the solver result is unchanged by the dangling load. -/
theorem ghost_pointLoad_ignored_witness :
    cantileverGhostLoad.pointLoads = cantilever.pointLoads ++ ghostLoad :: [] ∧
    ghostLoad.nodeId ∉ cantileverGhostLoad.nodes.map (·.id) ∧
    (validateModel cantileverGhostLoad).ok = true ∧
    ((validateModel { cantileverGhostLoad with
        pointLoads := cantilever.pointLoads ++ [] }).ok =
      (validateModel cantileverGhostLoad).ok ∧
     solveFem exactOps { cantileverGhostLoad with
        pointLoads := cantilever.pointLoads ++ [] } =
      solveFem exactOps cantileverGhostLoad) :=
  ⟨rfl, by with_unfolding_all decide, by with_unfolding_all rfl,
   ghost_pointLoad_ignored exactOps cantileverGhostLoad ghostLoad cantilever.pointLoads []
     rfl (by with_unfolding_all decide)⟩

end Nqm
